import Mathlib

/-!
# ProxControl: whitelist-aware Proxmox client and Discord command dispatcher

A shallow embedding of `internal/proxmox/client.go` and `cmd/bot/main.go`.

* Go `string` is `String`, Go `int` is `Int` (the 64-bit range is made explicit
  where text is parsed into an `int`).
* The remote side is a `World`: it gives the outcome of each request as a
  function of the requests made before it.  Every client operation threads the
  list of requests handed to the HTTP client so far, so "no remote call" is
  "the list is returned unchanged".
* Library code the repository calls but does not contain (JSON decoding, the
  Unicode lower-case table, float formatting) is gathered in `Lib`.
-/

set_option autoImplicit false
set_option maxRecDepth 8000

namespace ProxControl

/-! ## Data model (`client.go`) -/

/-- Go `VMStatus`. -/
structure VMStatus where
  Status : String
  Name : String
  VMID : Int
  Uptime : Int
  CPU : Float
  Mem : Int
  MaxMem : Int

/-- Go `VM`: one entry of the cluster inventory. -/
structure VM where
  VMID : Int
  Name : String
  Status : String
  Node : String
  deriving DecidableEq, Repr

/-- Go `Client`; `AllowedVMs` is the `map[int]bool`, read with default `false`. -/
structure Client where
  BaseURL : String
  TokenID : String
  Secret : String
  Node : String
  AllowedVMs : Int → Bool

/-- The request `doRequest` builds: method, URL, `Authorization` header and the
form parameters (present only for POST/PUT with a non-empty parameter map). -/
structure Request where
  method : String
  url : String
  authorization : String
  form : Option (List (String × String))
  deriving DecidableEq, Repr

/-- What happens to one request inside `doRequest`. -/
inductive Outcome where
  /-- `http.NewRequest` fails. -/
  | badRequest (err : String)
  /-- `HTTPClient.Do` fails (transport failure, timeout). -/
  | transportError (err : String)
  /-- `io.ReadAll` on the body fails. -/
  | readError (err : String)
  /-- A response with its status code and body. -/
  | response (StatusCode : Int) (body : String)
  deriving DecidableEq, Repr

/-- The remote side: the outcome of a request, given the requests made before. -/
abbrev World := List Request → Request → Outcome

/-- Library code used by the repository and not part of it. -/
structure Lib where
  /-- `unicode.ToLower`, used by `strings.ToLower` on text that is not pure ASCII. -/
  unicodeToLower : Char → Char
  /-- `json.Unmarshal(data, &response)` for `APIResponse`: the raw `data` field. -/
  decodeAPIResponse : String → Except String String
  /-- `json.Unmarshal(response.Data, &status)` for `VMStatus`. -/
  decodeVMStatus : String → Except String VMStatus
  /-- `json.Unmarshal(response.Data, &vms)` for `[]VM`. -/
  decodeVMs : String → Except String (List VM)
  /-- `fmt.Sprintf("%.1f", x)`. -/
  fmtFloat1 : Float → String
  /-- `fmt.Sprintf("%.2f", x)`. -/
  fmtFloat2 : Float → String

/-! ## Go library functions with a fixed meaning -/

/-- Go `fmt.Sprintf("%d", n)`. -/
def fmtInt (n : Int) : String :=
  if n < 0 then "-" ++ Nat.repr n.natAbs else Nat.repr n.natAbs

/-- Go `strings.TrimSuffix(s, suffix)`. -/
def TrimSuffix (s suffix : String) : String :=
  if suffix.data.isSuffixOf s.data then
    String.mk (s.data.take (s.data.length - suffix.data.length))
  else s

/-- ASCII part of `strings.ToLower`: 'A' to 'Z' (65 to 90) are moved up by 32. -/
def asciiToLower (c : Char) : Char :=
  if 65 ≤ c.toNat ∧ c.toNat ≤ 90 then Char.ofNat (c.toNat + 32) else c

/-- Text without a character from 128 (`utf8.RuneSelf`) on. -/
def isASCII (s : String) : Bool := s.data.all (fun c => c.toNat < 128)

/-- Go `strings.ToLower(s)`: pure-ASCII text is lowered bytewise, any other text is
mapped through `unicode.ToLower`. -/
def ToLower (L : Lib) (s : String) : String :=
  if isASCII s then String.mk (s.data.map asciiToLower)
  else String.mk (s.data.map L.unicodeToLower)

/-- Go `strings.Contains(s, substr)`. -/
def Contains (s substr : String) : Bool :=
  decide (substr.data <:+: s.data)

/-- White space of `unicode.IsSpace`, which is also the table of `fmt`s scanner. -/
def isSpace (r : Char) : Bool :=
  let n := r.toNat
  (0x09 ≤ n && n ≤ 0x0d) || n == 0x20 || n == 0x85 || n == 0xa0 || n == 0x1680 ||
    (0x2000 ≤ n && n ≤ 0x200a) || n == 0x2028 || n == 0x2029 || n == 0x202f ||
    n == 0x205f || n == 0x3000

/-- Go `strings.TrimSpace` on the characters of a string. -/
def TrimSpace (s : List Char) : List Char :=
  ((s.dropWhile isSpace).reverse.dropWhile isSpace).reverse

/-- Go `strings.Split(s, ",")` on the characters of a string: always at least one part. -/
def splitComma : List Char → List (List Char)
  | [] => [[]]
  | c :: cs =>
    if c = ',' then [] :: splitComma cs
    else
      match splitComma cs with
      | p :: ps => (c :: p) :: ps
      | [] => [[c]]

/-- The two errors of `strconv`. -/
inductive NumError where
  | syntaxError
  | rangeError
  deriving DecidableEq, Repr

/-- A decimal digit, '0' to '9'. -/
def isDigit (c : Char) : Bool := 48 ≤ c.toNat && c.toNat ≤ 57

/-- Value of a run of decimal digits, `none` if some character is not a digit. -/
def digitsValue : List Char → Nat → Option Nat
  | [], acc => some acc
  | c :: cs, acc =>
    if isDigit c then digitsValue cs (acc * 10 + (c.toNat - 48)) else none

/-- The part of `strconv.ParseInt(s, 10, 64)` after the sign: at least one
character, only digits, and the signed value in the range of `int64`. -/
def parseMagnitude (neg : Bool) (ds : List Char) : Except NumError Int :=
  if ds.isEmpty then .error .syntaxError
  else
    match digitsValue ds 0 with
    | none => .error .syntaxError
    | some n =>
      if neg then
        if n ≤ 2 ^ 63 then .ok (-(n : Int)) else .error .rangeError
      else
        if n < 2 ^ 63 then .ok (n : Int) else .error .rangeError

/-- Go `strconv.ParseInt(s, 10, 64)`, which is also `strconv.Atoi(s)` on a 64-bit
platform: an optional sign, then `parseMagnitude`. -/
def ParseInt10 : List Char → Except NumError Int
  | [] => .error .syntaxError
  | c :: rest =>
    if c = '+' then parseMagnitude false rest
    else if c = '-' then parseMagnitude true rest
    else parseMagnitude false (c :: rest)

/-- Go `strconv.Atoi`. -/
def Atoi (s : List Char) : Except NumError Int := ParseInt10 s

/-- Go `(*ss).SkipSpace` of `fmt` with `nlIsSpace = false` (the `Sscanf` setting):
the input left, or the error "unexpected newline". -/
def SkipSpace : List Char → Except String (List Char)
  | [] => .ok []
  | r :: rest =>
    if r = '\r' ∧ rest.head? = some '\n' then SkipSpace rest
    else if r = '\n' then .error "unexpected newline"
    else if isSpace r then SkipSpace rest
    else .ok (r :: rest)

/-- Go `fmt.Sscanf(input, "%d", &vmid)`: the value stored and a nil error, or the
error.  The scanner skips leading space, takes an optional sign and the longest
run of decimal digits, and does not look at what follows them.  (The scanner's
width limit of 2^30 runes is not modelled.) -/
def SscanfInt (input : String) : Except String Int :=
  match SkipSpace input.data with
  | .error e => .error e
  | .ok r0 =>
    match SkipSpace r0 with
    | .error e => .error e
    | .ok r1 =>
      match r1 with
      | [] => .error "unexpected EOF"
      | c :: cs =>
        let signTok := if c = '+' ∨ c = '-' then [c] else []
        let r2 := if c = '+' ∨ c = '-' then cs else r1
        match r2 with
        | [] => .error "unexpected EOF"
        | _ :: _ =>
          let ds := r2.takeWhile isDigit
          if ds.isEmpty then .error "expected integer"
          else
            match ParseInt10 (signTok ++ ds) with
            | .error .syntaxError => .error "invalid syntax"
            | .error .rangeError => .error "value out of range"
            | .ok v => .ok v

/-! ## The client (`client.go`) -/

/-- Function `NewClient`: the whitelist map is filled entry by entry. -/
def NewClient (baseURL tokenID secret node : String) (allowedVMs : List Int) : Client :=
  { BaseURL := TrimSuffix baseURL "/"
    TokenID := tokenID
    Secret := secret
    Node := node
    AllowedVMs := allowedVMs.foldl (fun vmMap vmid => fun k => if k = vmid then true else vmMap k)
      (fun _ => false) }

/-- Function `IsVMAllowed`. -/
def IsVMAllowed (c : Client) (vmid : Int) : Bool := c.AllowedVMs vmid

/-- The request `doRequest` builds from its arguments. -/
def requestOf (c : Client) (method endpoint : String) (params : List (String × String)) :
    Request :=
  let withForm := (method == "POST" || method == "PUT") && !params.isEmpty
  { method := method
    url := c.BaseURL ++ endpoint
    authorization := "PVEAPIToken=" ++ c.TokenID ++ "=" ++ c.Secret
    form := if withForm then some params else none }

/-- Function `doRequest`: builds the request and maps its outcome.  Returns the
result and the requests handed to `HTTPClient.Do` so far: when `http.NewRequest`
fails the function returns before `HTTPClient.Do` and the list is unchanged, in
every other case this request is appended. -/
def doRequest (c : Client) (w : World) (method endpoint : String)
    (params : List (String × String)) (tr : List Request) :
    Except String String × List Request :=
  let req := requestOf c method endpoint params
  match w tr req with
  | .badRequest err => (.error ("erreur lors de la création de la requête: " ++ err), tr)
  | .transportError err => (.error ("erreur lors de la requête HTTP: " ++ err), tr ++ [req])
  | .readError err =>
    (.error ("erreur lors de la lecture de la réponse: " ++ err), tr ++ [req])
  | .response code body =>
    if code ≥ 400 then
      (.error ("erreur API Proxmox: " ++ fmtInt code ++ " - " ++ body), tr ++ [req])
    else (.ok body, tr ++ [req])

/-- Function `GetVMStatus`. -/
def GetVMStatus (c : Client) (L : Lib) (w : World) (vmid : Int) (tr : List Request) :
    Except String VMStatus × List Request :=
  if !IsVMAllowed c vmid then (.error ("VM " ++ fmtInt vmid ++ " non autorisée"), tr)
  else
    let endpoint := "/nodes/" ++ c.Node ++ "/qemu/" ++ fmtInt vmid ++ "/status/current"
    match doRequest c w "GET" endpoint [] tr with
    | (.error err, tr1) => (.error err, tr1)
    | (.ok data, tr1) =>
      match L.decodeAPIResponse data with
      | .error err => (.error ("erreur de décodage JSON: " ++ err), tr1)
      | .ok raw =>
        match L.decodeVMStatus raw with
        | .error err => (.error ("erreur de décodage des données VM: " ++ err), tr1)
        | .ok status => (.ok status, tr1)

/-- Function `StartVM`. -/
def StartVM (c : Client) (w : World) (vmid : Int) (tr : List Request) :
    Except String Unit × List Request :=
  if !IsVMAllowed c vmid then (.error ("VM " ++ fmtInt vmid ++ " non autorisée"), tr)
  else
    let endpoint := "/nodes/" ++ c.Node ++ "/qemu/" ++ fmtInt vmid ++ "/status/start"
    match doRequest c w "POST" endpoint [] tr with
    | (.error err, tr1) => (.error err, tr1)
    | (.ok _, tr1) => (.ok (), tr1)

/-- Function `StopVM` (forced stop). -/
def StopVM (c : Client) (w : World) (vmid : Int) (tr : List Request) :
    Except String Unit × List Request :=
  if !IsVMAllowed c vmid then (.error ("VM " ++ fmtInt vmid ++ " non autorisée"), tr)
  else
    let endpoint := "/nodes/" ++ c.Node ++ "/qemu/" ++ fmtInt vmid ++ "/status/stop"
    match doRequest c w "POST" endpoint [] tr with
    | (.error err, tr1) => (.error err, tr1)
    | (.ok _, tr1) => (.ok (), tr1)

/-- Function `ShutdownVM` (graceful shutdown). -/
def ShutdownVM (c : Client) (w : World) (vmid : Int) (tr : List Request) :
    Except String Unit × List Request :=
  if !IsVMAllowed c vmid then (.error ("VM " ++ fmtInt vmid ++ " non autorisée"), tr)
  else
    let endpoint := "/nodes/" ++ c.Node ++ "/qemu/" ++ fmtInt vmid ++ "/status/shutdown"
    match doRequest c w "POST" endpoint [] tr with
    | (.error err, tr1) => (.error err, tr1)
    | (.ok _, tr1) => (.ok (), tr1)

/-- The loop of `ParseAllowedVMs` over the parts, appending to `vms`. -/
def parseParts : List (List Char) → List Int → Except String (List Int)
  | [], vms => .ok vms
  | part :: rest, vms =>
    match Atoi (TrimSpace part) with
    | .error _ => .error ("ID VM invalide: " ++ String.mk part)
    | .ok vmid => parseParts rest (vms ++ [vmid])

/-- Function `ParseAllowedVMs`. -/
def ParseAllowedVMs (vmsStr : String) : Except String (List Int) :=
  if vmsStr = "" then .ok []
  else parseParts (splitComma vmsStr.data) []

/-- The filter loop of `ListVMs`, appending to `allowedVMs`. -/
def keepAllowed (c : Client) : List VM → List VM → List VM
  | [], allowedVMs => allowedVMs
  | vm :: rest, allowedVMs =>
    if IsVMAllowed c vm.VMID then keepAllowed c rest (allowedVMs ++ [vm])
    else keepAllowed c rest allowedVMs

/-- Function `ListVMs`. -/
def ListVMs (c : Client) (L : Lib) (w : World) (tr : List Request) :
    Except String (List VM) × List Request :=
  match doRequest c w "GET" "/cluster/resources?type=vm" [] tr with
  | (.error err, tr1) => (.error err, tr1)
  | (.ok data, tr1) =>
    match L.decodeAPIResponse data with
    | .error err => (.error ("erreur de décodage JSON: " ++ err), tr1)
    | .ok raw =>
      match L.decodeVMs raw with
      | .error err => (.error ("erreur de décodage des VMs: " ++ err), tr1)
      | .ok vms => (.ok (keepAllowed c vms []), tr1)

/-- The search loop of `FindVMByName`. -/
def findByLower (L : Lib) (nameLower : String) : List VM → Option VM
  | [] => none
  | vm :: rest => if ToLower L vm.Name = nameLower then some vm else findByLower L nameLower rest

/-- Function `FindVMByName`. -/
def FindVMByName (c : Client) (L : Lib) (w : World) (name : String) (tr : List Request) :
    Except String VM × List Request :=
  match ListVMs c L w tr with
  | (.error err, tr1) => (.error err, tr1)
  | (.ok vms, tr1) =>
    match findByLower L (ToLower L name) vms with
    | some vm => (.ok vm, tr1)
    | none => (.error ("VM '" ++ name ++ "' non trouvée"), tr1)

/-! ## The dispatcher (`main.go`) -/

/-- The innermost option of an interaction: its name and `StringValue()`. -/
structure SubOption where
  Name : String
  Value : String
  deriving DecidableEq, Repr

/-- A sub-command option (`data.Options[0]`). -/
structure CommandOption where
  Name : String
  Options : List SubOption
  deriving DecidableEq, Repr

/-- The data of an interaction (`i.ApplicationCommandData()`). -/
structure CommandData where
  Name : String
  Options : List CommandOption
  deriving DecidableEq, Repr

/-- One autocomplete suggestion (`ApplicationCommandOptionChoice`). -/
structure Choice where
  Name : String
  Value : String
  deriving DecidableEq, Repr

/-- The calls a handler makes on the Discord session. -/
inductive DiscordCall where
  /-- `InteractionRespond` with the deferred message type. -/
  | respondDeferred
  /-- `InteractionRespond` with the autocomplete result. -/
  | respondChoices (choices : List Choice)
  /-- `InteractionResponseEdit` with one embed. -/
  | editResponse (description : String) (color : Int)
  deriving DecidableEq, Repr

/-- The loop of `handleAutocomplete` over the VMs, appending to `choices` and
leaving the loop once 25 are collected. -/
def collectChoices (L : Lib) (focusedValue focusedLower : String) :
    List VM → List Choice → List Choice
  | [], choices => choices
  | vm :: rest, choices =>
    if focusedValue = "" ∨ Contains (ToLower L vm.Name) focusedLower = true ∨
        Contains (fmtInt vm.VMID) focusedValue = true then
      let choices1 := choices ++
        [{ Name := vm.Name ++ " (ID: " ++ fmtInt vm.VMID ++ ") - " ++ vm.Status
           Value := fmtInt vm.VMID }]
      if choices1.length ≥ 25 then choices1
      else collectChoices L focusedValue focusedLower rest choices1
    else collectChoices L focusedValue focusedLower rest choices

/-- The typed fragment read by `handleAutocomplete`. -/
def focusedValueOf (data : CommandData) : String :=
  match data.Options with
  | [] => ""
  | sub :: _ =>
    match sub.Options with
    | [] => ""
    | opt :: _ => opt.Value

/-- Function `handleAutocomplete`. -/
def handleAutocomplete (c : Client) (L : Lib) (w : World) (data : CommandData)
    (tr : List Request) : List DiscordCall × List Request :=
  if data.Name ≠ "vm" then ([], tr)
  else
    let focusedValue := focusedValueOf data
    match ListVMs c L w tr with
    | (.error _, tr1) => ([], tr1)
    | (.ok vms, tr1) =>
      let choices := collectChoices L focusedValue (ToLower L focusedValue) vms []
      ([.respondChoices choices], tr1)

/-- Function `parseVMInput`. -/
def parseVMInput (c : Client) (L : Lib) (w : World) (input : String) (tr : List Request) :
    Except String Int × List Request :=
  match SscanfInt input with
  | .ok vmid => (.ok vmid, tr)
  | .error _ =>
    match FindVMByName c L w input tr with
    | (.error err, tr1) => (.error err, tr1)
    | (.ok vm, tr1) => (.ok vm.VMID, tr1)

/-- The text of a successful `status` reply. -/
def statusText (L : Lib) (status : VMStatus) : String :=
  let uptimeHours := Int.tdiv status.Uptime 3600
  let memUsedGB := Float.ofInt status.Mem / 1024 / 1024 / 1024
  let memTotalGB := Float.ofInt status.MaxMem / 1024 / 1024 / 1024
  let cpuPercent := status.CPU * 100
  "📊 **VM " ++ fmtInt status.VMID ++ " - " ++ status.Name ++ "**\n" ++
    "• État: **" ++ status.Status ++ "**\n" ++
    "• Uptime: " ++ fmtInt uptimeHours ++ " heures\n" ++
    "• CPU: " ++ L.fmtFloat1 cpuPercent ++ "%\n" ++
    "• RAM: " ++ L.fmtFloat2 memUsedGB ++ " GB / " ++ L.fmtFloat2 memTotalGB ++ " GB"

/-- Function `executeVMCommand`: the reply text, its colour, and the requests made. -/
def executeVMCommand (c : Client) (L : Lib) (w : World) (command : String) (vmid : Int)
    (tr : List Request) : (String × Int) × List Request :=
  if command = "start" then
    match StartVM c w vmid tr with
    | (.error err, tr1) =>
      (("❌ Erreur lors du démarrage de la VM " ++ fmtInt vmid ++ ": " ++ err, 0xFF0000), tr1)
    | (.ok _, tr1) => (("✅ VM " ++ fmtInt vmid ++ " en cours de démarrage", 0x00FF00), tr1)
  else if command = "stop" then
    match ShutdownVM c w vmid tr with
    | (.error err, tr1) =>
      (("❌ Erreur lors de l'arrêt de la VM " ++ fmtInt vmid ++ ": " ++ err, 0xFF0000), tr1)
    | (.ok _, tr1) => (("🛑 VM " ++ fmtInt vmid ++ " en cours d'arrêt", 0xFFA500), tr1)
  else if command = "status" then
    match GetVMStatus c L w vmid tr with
    | (.error err, tr1) =>
      (("❌ Erreur lors de la récupération du statut de la VM " ++ fmtInt vmid ++ ": " ++ err,
        0xFF0000), tr1)
    | (.ok status, tr1) =>
      ((statusText L status, if status.Status = "running" then 0x00FF00 else 0xFF0000), tr1)
  else (("❌ Commande inconnue", 0xFF0000), tr)

/-- The glyph of one VM in the `list` reply. -/
def statusEmoji (vm : VM) : String :=
  if vm.Status = "running" then "🟢" else "🔴"

/-- The line of one VM in the `list` reply:
`fmt.Sprintf("%s **%s** (ID: %d) - %s\n", statusEmoji, vm.Name, vm.VMID, vm.Status)`. -/
def listLine (vm : VM) : String :=
  statusEmoji vm ++ " **" ++ vm.Name ++ "** (ID: " ++ fmtInt vm.VMID ++ ") - " ++
    vm.Status ++ "\n"

/-- The loop of the `list` branch of `handleCommand`, appending one line per VM. -/
def listLines : List VM → String → String
  | [], response => response
  | vm :: rest, response => listLines rest (response ++ listLine vm)

/-- Function `handleCommand`: the calls made on the Discord session, in order, and the
requests made. -/
def handleCommand (c : Client) (L : Lib) (w : World) (data : CommandData)
    (tr : List Request) : List DiscordCall × List Request :=
  if data.Name ≠ "vm" then ([], tr)
  else
    match data.Options with
    | [] => ([], tr)
    | subCommand :: _ =>
      if subCommand.Name = "list" then
        match ListVMs c L w tr with
        | (.error err, tr1) =>
          ([.respondDeferred,
            .editResponse ("❌ Erreur lors de la récupération des VMs: " ++ err) 0xFF0000], tr1)
        | (.ok vms, tr1) =>
          let response :=
            if vms.length = 0 then "Aucune VM autorisée trouvée."
            else listLines vms "**VMs autorisées:**\n\n"
          ([.respondDeferred, .editResponse response 0x0099FF], tr1)
      else
        match subCommand.Options with
        | [] => ([.respondDeferred], tr)
        | opt :: _ =>
          match parseVMInput c L w opt.Value tr with
          | (.error err, tr1) =>
            ([.respondDeferred, .editResponse ("❌ " ++ err) 0xFF0000], tr1)
          | (.ok vmid, tr1) =>
            match executeVMCommand c L w subCommand.Name vmid tr1 with
            | ((response, color), tr2) =>
              ([.respondDeferred, .editResponse response color], tr2)

/-! ## Example data: the end-to-end scenario of the specification -/

/-- A library whose JSON decoder yields the inventory `inv`. -/
def libWith (inv : List VM) : Lib :=
  { unicodeToLower := id
    decodeAPIResponse := fun body => .ok body
    decodeVMStatus := fun _ => .error "unexpected end of JSON input"
    decodeVMs := fun _ => .ok inv
    fmtFloat1 := fun _ => ""
    fmtFloat2 := fun _ => "" }

/-- Inventory: 100 ("web", running), 101 ("db", stopped), 102 ("other", running). -/
def exampleInventory : List VM :=
  [⟨100, "web", "running", "pve"⟩, ⟨101, "db", "stopped", "pve"⟩,
    ⟨102, "other", "running", "pve"⟩]

/-- A remote side that answers every request with status 200. -/
def exampleWorld : World := fun _ _ => .response 200 "inventory"

/-- A client with whitelist 100, 101. -/
def exampleClient : Client :=
  NewClient "https://pve.example:8006/api2/json/" "bot@pve!discord" "secret" "pve" [100, 101]

/-- An inventory with three names that differ only in letter case: the first
entry is not whitelisted by `namedClient`, the second is whitelisted and has
another name. -/
def namedInventory : List VM :=
  [⟨102, "webserver", "running", "pve"⟩, ⟨101, "db", "stopped", "pve"⟩,
    ⟨100, "WebServer", "running", "pve"⟩, ⟨103, "WEBSERVER", "stopped", "pve"⟩]

/-- A client with whitelist 100, 101, 103. -/
def namedClient : Client :=
  NewClient "https://pve.example:8006/api2/json/" "bot@pve!discord" "secret" "pve"
    [100, 101, 103]

/-- A success status in the sense of HTTP: the 2xx class. -/
def SuccessStatus (code : Int) : Prop := 200 ≤ code ∧ code < 300

instance (code : Int) : Decidable (SuccessStatus code) := by
  unfold SuccessStatus; infer_instance

/-- A remote side that answers every request with status 304 and an empty body. -/
def notModifiedWorld : World := fun _ _ => .response 304 ""

/-- A remote side that answers every POST with status 500 and every other
request with status 200. -/
def startFails : World := fun _ req =>
  if req.method = "POST" then .response 500 "internal error" else .response 200 "inventory"

/-- A world in which `http.NewRequest` rejects a URL with an ASCII control
character, as `net/url` does, and every other request is answered with 200. -/
def strictWorld : World := fun _ req =>
  if req.url.data.any (fun ch => ch.toNat < 32 || ch.toNat == 127) then
    .badRequest "net/url: invalid control character in URL"
  else .response 200 "inventory"

/-- A client with whitelist 100, 101 whose configured base URL ends in a tab. -/
def tabClient : Client :=
  NewClient "https://pve.example:8006/api2/json\t" "bot@pve!discord" "secret" "pve" [100, 101]

/-- An inventory of `n` VMs numbered from `first`, all named "vm". -/
def manyVMs (first : Int) : Nat → List VM
  | 0 => []
  | n + 1 => ⟨first, "vm", "running", "pve"⟩ :: manyVMs (first + 1) n

/-- An inventory in which the VM named "3cx" has the id 105, next to a VM with id 3. -/
def pbxInventory : List VM :=
  [⟨3, "db", "running", "pve"⟩, ⟨105, "3cx", "stopped", "pve"⟩]

/-- A client with whitelist 3, 105. -/
def pbxClient : Client :=
  NewClient "https://pve.example:8006/api2/json" "bot@pve!discord" "secret" "pve" [3, 105]

/-! ## The words of the specification about letter case -/

/-- The upper-case ASCII letters. -/
def asciiUpper : List Char := "ABCDEFGHIJKLMNOPQRSTUVWXYZ".data

/-- The lower-case ASCII letters, in the same order. -/
def asciiLower : List Char := "abcdefghijklmnopqrstuvwxyz".data

/-- Two characters are the same letter up to case: equal, or an upper-case ASCII
letter and its lower-case form, in either order. -/
def SameLetter (a b : Char) : Prop :=
  a = b ∨ (a, b) ∈ asciiUpper.zip asciiLower ∨ (b, a) ∈ asciiUpper.zip asciiLower

/-- Two texts are equal ignoring letter case: same length, and the same letter up
to case at every position. -/
def EqIgnoreCase (s t : String) : Prop := List.Forall₂ SameLetter s.data t.data

/-! ## The words of the specification about numbers -/

/-- The number a run of decimal digits denotes, most significant digit first. -/
def decimalValue (ds : List Char) : Nat :=
  Nat.ofDigits 10 (ds.reverse.map (fun c => c.toNat - 48))

/-- The text `s` is a valid decimal integer of value `v`: an optional sign, then
one or more decimal digits and nothing else, with `v` in the range of a 64-bit
`int`. -/
def DecimalInt (s : List Char) (v : Int) : Prop :=
  ∃ sign digits, s = sign ++ digits ∧ (sign = [] ∨ sign = ['+'] ∨ sign = ['-']) ∧
    digits ≠ [] ∧ (∀ c ∈ digits, isDigit c = true) ∧
    v = (if sign = ['-'] then -(decimalValue digits : Int) else (decimalValue digits : Int)) ∧
    -(2 : Int) ^ 63 ≤ v ∧ v < (2 : Int) ^ 63

/-! # Theorems -/

/-! ## Whitelist -/

theorem foldl_allowed (l : List Int) (m : Int → Bool) (id : Int) :
    (l.foldl (fun vmMap vmid => fun k => if k = vmid then true else vmMap k) m) id
      = (decide (id ∈ l) || m id) := by
  induction l generalizing m with
  | nil => simp
  | cons a t ih =>
    simp only [List.foldl_cons, ih, List.mem_cons]
    by_cases h : id = a <;> by_cases h2 : id ∈ t <;> simp [h, h2]

theorem IsVMAllowed_NewClient (baseURL tokenID secret node : String) (l : List Int) (id : Int) :
    IsVMAllowed (NewClient baseURL tokenID secret node l) id = decide (id ∈ l) := by
  exact (foldl_allowed l (fun _ => false) id).trans (by simp)

theorem keepAllowed_eq (c : Client) (vms acc : List VM) :
    keepAllowed c vms acc = acc ++ vms.filter (fun vm => IsVMAllowed c vm.VMID) := by
  induction vms generalizing acc with
  | nil => simp [keepAllowed]
  | cons vm rest ih =>
    by_cases h : IsVMAllowed c vm.VMID = true
    · simp [keepAllowed, h, ih]
    · simp [keepAllowed, h, ih]

theorem doRequest_trace_sent (c : Client) (w : World) (method endpoint : String)
    (params : List (String × String)) (tr : List Request)
    (h : ∀ err, w tr (requestOf c method endpoint params) ≠ .badRequest err) :
    (doRequest c w method endpoint params tr).2 = tr ++ [requestOf c method endpoint params] := by
  cases hw : w tr (requestOf c method endpoint params) with
  | badRequest err => exact absurd hw (h err)
  | transportError err => simp [doRequest, hw]
  | readError err => simp [doRequest, hw]
  | response code body => by_cases hc : code ≥ 400 <;> simp [doRequest, hw, hc]

theorem doRequest_trace_unsent (c : Client) (w : World) (method endpoint : String)
    (params : List (String × String)) (tr : List Request) (err : String)
    (h : w tr (requestOf c method endpoint params) = .badRequest err) :
    doRequest c w method endpoint params tr
      = (.error ("erreur lors de la création de la requête: " ++ err), tr) := by
  simp [doRequest, h]

theorem doRequest_response (c : Client) (w : World) (method endpoint : String)
    (params : List (String × String)) (tr : List Request) (code : Int) (body : String)
    (h : w tr (requestOf c method endpoint params) = .response code body) :
    doRequest c w method endpoint params tr =
      (if code ≥ 400 then .error ("erreur API Proxmox: " ++ fmtInt code ++ " - " ++ body)
        else .ok body, tr ++ [requestOf c method endpoint params]) := by
  by_cases hc : code ≥ 400 <;> simp [doRequest, h, hc]

theorem ListVMs_decoded (c : Client) (L : Lib) (w : World) (tr : List Request)
    (status : Int) (body raw : String) (inv : List VM)
    (hresp : w tr (requestOf c "GET" "/cluster/resources?type=vm" []) = .response status body)
    (hstatus : status < 400)
    (hjson : L.decodeAPIResponse body = .ok raw) (hvms : L.decodeVMs raw = .ok inv) :
    ListVMs c L w tr = (.ok (inv.filter (fun vm => IsVMAllowed c vm.VMID)),
      tr ++ [requestOf c "GET" "/cluster/resources?type=vm" []]) := by
  have h := doRequest_response c w "GET" "/cluster/resources?type=vm" [] tr status body hresp
  have hs : ¬ status ≥ 400 := by omega
  simp only [hs, if_false] at h
  simp [ListVMs, h, hjson, hvms, keepAllowed_eq]


theorem ListVMs_trace (c : Client) (L : Lib) (w : World) (tr : List Request) :
    (ListVMs c L w tr).2 = (doRequest c w "GET" "/cluster/resources?type=vm" [] tr).2 := by
  unfold ListVMs
  split
  · simp_all
  · split
    · simp_all
    · split <;> simp_all

theorem GetVMStatus_trace (c : Client) (L : Lib) (w : World) (id : Int) (tr : List Request)
    (h : IsVMAllowed c id = true) :
    (GetVMStatus c L w id tr).2
      = (doRequest c w "GET"
          ("/nodes/" ++ c.Node ++ "/qemu/" ++ fmtInt id ++ "/status/current") [] tr).2 := by
  simp only [GetVMStatus, h, Bool.not_true, Bool.false_eq_true, if_false]
  split
  · simp_all
  · split
    · simp_all
    · split <;> simp_all

theorem StartVM_trace (c : Client) (w : World) (id : Int) (tr : List Request)
    (h : IsVMAllowed c id = true) :
    (StartVM c w id tr).2
      = (doRequest c w "POST"
          ("/nodes/" ++ c.Node ++ "/qemu/" ++ fmtInt id ++ "/status/start") [] tr).2 := by
  simp only [StartVM, h, Bool.not_true, Bool.false_eq_true, if_false]
  split <;> simp_all

theorem StopVM_trace (c : Client) (w : World) (id : Int) (tr : List Request)
    (h : IsVMAllowed c id = true) :
    (StopVM c w id tr).2
      = (doRequest c w "POST"
          ("/nodes/" ++ c.Node ++ "/qemu/" ++ fmtInt id ++ "/status/stop") [] tr).2 := by
  simp only [StopVM, h, Bool.not_true, Bool.false_eq_true, if_false]
  split <;> simp_all

theorem ShutdownVM_trace (c : Client) (w : World) (id : Int) (tr : List Request)
    (h : IsVMAllowed c id = true) :
    (ShutdownVM c w id tr).2
      = (doRequest c w "POST"
          ("/nodes/" ++ c.Node ++ "/qemu/" ++ fmtInt id ++ "/status/shutdown") [] tr).2 := by
  simp only [ShutdownVM, h, Bool.not_true, Bool.false_eq_true, if_false]
  split <;> simp_all

/-! ## Name lookup and the whitelist guard -/

theorem findByLower_none (L : Lib) (nl : String) (vms : List VM) :
    findByLower L nl vms = none ↔ ∀ x ∈ vms, ToLower L x.Name ≠ nl := by
  induction vms with
  | nil => simp [findByLower]
  | cons vm rest ih =>
    by_cases h : ToLower L vm.Name = nl
    · simp [findByLower, h]
    · simp [findByLower, h, ih]

theorem findByLower_some (L : Lib) (nl : String) (vms : List VM) (vm : VM) :
    findByLower L nl vms = some vm ↔
      ∃ pre post, vms = pre ++ vm :: post ∧ ToLower L vm.Name = nl ∧
        ∀ x ∈ pre, ToLower L x.Name ≠ nl := by
  induction vms with
  | nil => simp [findByLower]
  | cons v rest ih =>
    by_cases h : ToLower L v.Name = nl
    · simp only [findByLower, h, if_true, Option.some.injEq]
      constructor
      · rintro rfl
        exact ⟨[], rest, rfl, h, by simp⟩
      · rintro ⟨pre, post, heq, _, hpre⟩
        cases pre with
        | nil => simp at heq; exact heq.1
        | cons p ps =>
          simp at heq
          exact absurd (heq.1 ▸ h) (hpre p (by simp))
    · simp only [findByLower, h, if_false, ih]
      constructor
      · rintro ⟨pre, post, heq, hm, hpre⟩
        refine ⟨v :: pre, post, by simp [heq], hm, ?_⟩
        intro x hx
        rcases List.mem_cons.1 hx with rfl | hx
        · exact h
        · exact hpre x hx
      · rintro ⟨pre, post, heq, hm, hpre⟩
        cases pre with
        | nil =>
          simp at heq
          exact absurd (heq.1 ▸ hm) h
        | cons p ps =>
          simp at heq
          exact ⟨ps, post, heq.2, hm, fun x hx => hpre x (by simp [hx])⟩

/-- C1: a client built by `NewClient` from the list `l` answers `GetVMStatus`,
`StartVM`, `StopVM` and `ShutdownVM` on an identifier outside `l` with the error
"VM <id> non autorisée" and makes no request: the request list is unchanged. -/
theorem not_allowed_no_request (baseURL tokenID secret node : String) (l : List Int)
    (id : Int) (L : Lib) (w : World) (tr : List Request) (h : id ∉ l) :
    GetVMStatus (NewClient baseURL tokenID secret node l) L w id tr
        = (.error ("VM " ++ fmtInt id ++ " non autorisée"), tr) ∧
      StartVM (NewClient baseURL tokenID secret node l) w id tr
        = (.error ("VM " ++ fmtInt id ++ " non autorisée"), tr) ∧
      StopVM (NewClient baseURL tokenID secret node l) w id tr
        = (.error ("VM " ++ fmtInt id ++ " non autorisée"), tr) ∧
      ShutdownVM (NewClient baseURL tokenID secret node l) w id tr
        = (.error ("VM " ++ fmtInt id ++ " non autorisée"), tr) := by
  have hna : IsVMAllowed (NewClient baseURL tokenID secret node l) id = false := by
    rw [IsVMAllowed_NewClient]; simpa using h
  refine ⟨?_, ?_, ?_, ?_⟩
  · simp [GetVMStatus, hna]
  · simp [StartVM, hna]
  · simp [StopVM, hna]
  · simp [ShutdownVM, hna]

theorem not_allowed_no_request_witness :
    (102 : Int) ∉ [100, 101] ∧
      GetVMStatus exampleClient (libWith exampleInventory) exampleWorld 102 []
        = (.error "VM 102 non autorisée", []) ∧
      StartVM exampleClient exampleWorld 102 [] = (.error "VM 102 non autorisée", []) ∧
      StopVM exampleClient exampleWorld 102 [] = (.error "VM 102 non autorisée", []) ∧
      ShutdownVM exampleClient exampleWorld 102 [] = (.error "VM 102 non autorisée", []) :=
  ⟨by decide, not_allowed_no_request _ _ _ _ [100, 101] 102 _ _ [] (by decide)⟩

/-- C2: when the inventory request is answered with a status below 400 and the
body decodes to the inventory `inv`, `ListVMs` returns exactly the entries of
`inv` whose VMID is whitelisted, in inventory order, after one request; every
returned entry is allowed and no allowed entry of `inv` is left out. -/
theorem ListVMs_exactly_whitelisted (c : Client) (L : Lib) (w : World) (tr : List Request)
    (status : Int) (body raw : String) (inv : List VM)
    (hresp : w tr (requestOf c "GET" "/cluster/resources?type=vm" []) = .response status body)
    (hstatus : status < 400)
    (hjson : L.decodeAPIResponse body = .ok raw) (hvms : L.decodeVMs raw = .ok inv) :
    ∃ vms, ListVMs c L w tr = (.ok vms, tr ++ [requestOf c "GET" "/cluster/resources?type=vm" []]) ∧
      vms = inv.filter (fun vm => IsVMAllowed c vm.VMID) ∧
      List.Sublist vms inv ∧
      (∀ vm ∈ vms, IsVMAllowed c vm.VMID = true) ∧
      (∀ vm ∈ inv, IsVMAllowed c vm.VMID = true → vm ∈ vms) := by
  refine ⟨_, ListVMs_decoded c L w tr status body raw inv hresp hstatus hjson hvms, rfl,
    List.filter_sublist _, ?_, ?_⟩
  · intro vm hvm
    exact (List.mem_filter.1 hvm).2
  · intro vm hvm hal
    exact List.mem_filter.2 ⟨hvm, hal⟩

theorem ListVMs_exactly_whitelisted_witness :
    ListVMs exampleClient (libWith exampleInventory) exampleWorld []
      = (.ok [⟨100, "web", "running", "pve"⟩, ⟨101, "db", "stopped", "pve"⟩],
          [requestOf exampleClient "GET" "/cluster/resources?type=vm" []]) := by
  obtain ⟨vms, h, hv, _⟩ :=
    ListVMs_exactly_whitelisted exampleClient (libWith exampleInventory) exampleWorld []
      200 "inventory" "inventory" exampleInventory rfl (by decide) rfl rfl
  rw [h, hv]
  rfl

theorem toNat_ofNat_small (n : Nat) (h : n < 55296) : (Char.ofNat n).toNat = n := by
  have hv : n.isValidChar := Or.inl h
  simp only [Char.ofNat, hv, dite_true, Char.toNat, Char.ofNatAux]
  rfl

theorem char_eq_of_toNat (a b : Char) (h : a.toNat = b.toNat) : a = b := by
  rw [← Char.ofNat_toNat a, ← Char.ofNat_toNat b, h]

theorem mem_casePairs (a b : Char) :
    (a, b) ∈ asciiUpper.zip asciiLower ↔
      (65 ≤ a.toNat ∧ a.toNat ≤ 90 ∧ b.toNat = a.toNat + 32) := by
  constructor
  · intro h
    simp only [asciiUpper, asciiLower, List.zip_cons_cons, List.zip_nil_right, List.mem_cons,
      Prod.mk.injEq, List.mem_nil_iff, or_false] at h
    casesm* _ ∨ _ <;> casesm* _ ∧ _ <;> subst_vars <;> decide
  · rintro ⟨h1, h2, h3⟩
    have ha : a = Char.ofNat a.toNat := (Char.ofNat_toNat a).symm
    have hb : b = Char.ofNat (a.toNat + 32) := by rw [← h3, Char.ofNat_toNat]
    rw [ha, hb]
    generalize a.toNat = n at h1 h2
    interval_cases n <;> decide

theorem asciiToLower_upper (c : Char) (h : 65 ≤ c.toNat ∧ c.toNat ≤ 90) :
    asciiToLower c = Char.ofNat (c.toNat + 32) := if_pos h

theorem asciiToLower_other (c : Char) (h : ¬ (65 ≤ c.toNat ∧ c.toNat ≤ 90)) :
    asciiToLower c = c := if_neg h

theorem asciiToLower_eq_iff (a b : Char) :
    asciiToLower a = asciiToLower b ↔ SameLetter a b := by
  unfold SameLetter
  rw [mem_casePairs, mem_casePairs]
  by_cases ua : 65 ≤ a.toNat ∧ a.toNat ≤ 90 <;> by_cases ub : 65 ≤ b.toNat ∧ b.toNat ≤ 90
  · rw [asciiToLower_upper a ua, asciiToLower_upper b ub]
    constructor
    · intro h
      have h2 := congrArg Char.toNat h
      rw [toNat_ofNat_small _ (by omega), toNat_ofNat_small _ (by omega)] at h2
      exact Or.inl (char_eq_of_toNat a b (by omega))
    · rintro (rfl | h | h)
      · rfl
      · omega
      · omega
  · rw [asciiToLower_upper a ua, asciiToLower_other b ub]
    constructor
    · intro h
      have h2 := congrArg Char.toNat h
      rw [toNat_ofNat_small _ (by omega)] at h2
      exact Or.inr (Or.inl ⟨ua.1, ua.2, h2.symm⟩)
    · rintro (rfl | h | h)
      · exact absurd ua ub
      · rw [← h.2.2, Char.ofNat_toNat]
      · exact absurd ⟨h.1, h.2.1⟩ ub
  · rw [asciiToLower_other a ua, asciiToLower_upper b ub]
    constructor
    · intro h
      have h2 := congrArg Char.toNat h
      rw [toNat_ofNat_small _ (by omega)] at h2
      exact Or.inr (Or.inr ⟨ub.1, ub.2, h2⟩)
    · rintro (rfl | h | h)
      · exact absurd ub ua
      · exact absurd ⟨h.1, h.2.1⟩ ua
      · rw [← h.2.2, Char.ofNat_toNat]
  · rw [asciiToLower_other a ua, asciiToLower_other b ub]
    constructor
    · intro h; exact Or.inl h
    · rintro (h | h | h)
      · exact h
      · exact absurd ⟨h.1, h.2.1⟩ ua
      · exact absurd ⟨h.1, h.2.1⟩ ub

theorem map_asciiToLower_eq_iff (l₁ l₂ : List Char) :
    l₁.map asciiToLower = l₂.map asciiToLower ↔ List.Forall₂ SameLetter l₁ l₂ := by
  induction l₁ generalizing l₂ with
  | nil => cases l₂ <;> simp
  | cons a t ih =>
    cases l₂ with
    | nil => simp
    | cons b u => simp [asciiToLower_eq_iff, ih]

theorem ToLower_ascii_iff (L : Lib) (a b : String) (ha : isASCII a = true)
    (hb : isASCII b = true) : ToLower L a = ToLower L b ↔ EqIgnoreCase a b := by
  simp only [ToLower, ha, hb, if_true, EqIgnoreCase, ← map_asciiToLower_eq_iff]
  constructor
  · intro h
    exact congrArg String.data h
  · intro h
    rw [h]

/-- C3: when `ListVMs` succeeds on the inventory `inv`, `FindVMByName name`
returns the first whitelisted entry, in inventory order, whose lower-cased name
equals the lower-cased `name`, and it returns the error "VM '<name>' non trouvée"
exactly when no whitelisted entry has such a name; there is no third outcome.
On ASCII text, equality of the lower-cased forms is equality ignoring letter
case, so that for an ASCII `name` and ASCII inventory names the entry returned
is the first whitelisted one whose name equals `name` ignoring letter case, and
the error is returned exactly when there is none; "webserver" equals "WebServer"
ignoring letter case, and "xyz" does not equal "web".  Outside ASCII the
lower-cased form is that of `unicode.ToLower`. -/
theorem FindVMByName_first_match (c : Client) (L : Lib) (w : World) (tr : List Request)
    (status : Int) (body raw : String) (inv : List VM) (name : String)
    (hresp : w tr (requestOf c "GET" "/cluster/resources?type=vm" []) = .response status body)
    (hstatus : status < 400)
    (hjson : L.decodeAPIResponse body = .ok raw) (hvms : L.decodeVMs raw = .ok inv) :
    (∀ vm, FindVMByName c L w name tr
          = (.ok vm, tr ++ [requestOf c "GET" "/cluster/resources?type=vm" []]) ↔
        ∃ pre post, inv.filter (fun x => IsVMAllowed c x.VMID) = pre ++ vm :: post ∧
          ToLower L vm.Name = ToLower L name ∧
          ∀ x ∈ pre, ToLower L x.Name ≠ ToLower L name) ∧
      (FindVMByName c L w name tr
          = (.error ("VM '" ++ name ++ "' non trouvée"),
              tr ++ [requestOf c "GET" "/cluster/resources?type=vm" []]) ↔
        ∀ x ∈ inv, IsVMAllowed c x.VMID = true → ToLower L x.Name ≠ ToLower L name) ∧
      ((∃ vm, (FindVMByName c L w name tr).1 = .ok vm) ∨
        (FindVMByName c L w name tr).1 = .error ("VM '" ++ name ++ "' non trouvée")) ∧
      ToLower L "webserver" = ToLower L "WebServer" ∧
      (∀ a b : String, isASCII a = true → isASCII b = true →
        (ToLower L a = ToLower L b ↔ EqIgnoreCase a b)) ∧
      (isASCII name = true → (∀ x ∈ inv, isASCII x.Name = true) →
        (∀ vm, FindVMByName c L w name tr
              = (.ok vm, tr ++ [requestOf c "GET" "/cluster/resources?type=vm" []]) ↔
            ∃ pre post, inv.filter (fun x => IsVMAllowed c x.VMID) = pre ++ vm :: post ∧
              EqIgnoreCase vm.Name name ∧ ∀ x ∈ pre, ¬ EqIgnoreCase x.Name name) ∧
          (FindVMByName c L w name tr
              = (.error ("VM '" ++ name ++ "' non trouvée"),
                  tr ++ [requestOf c "GET" "/cluster/resources?type=vm" []]) ↔
            ∀ x ∈ inv, IsVMAllowed c x.VMID = true → ¬ EqIgnoreCase x.Name name)) ∧
      EqIgnoreCase "webserver" "WebServer" ∧ ¬ EqIgnoreCase "xyz" "web" := by
  have hl := ListVMs_decoded c L w tr status body raw inv hresp hstatus hjson hvms
  have h1 : ∀ vm, FindVMByName c L w name tr
        = (.ok vm, tr ++ [requestOf c "GET" "/cluster/resources?type=vm" []]) ↔
      ∃ pre post, inv.filter (fun x => IsVMAllowed c x.VMID) = pre ++ vm :: post ∧
        ToLower L vm.Name = ToLower L name ∧
        ∀ x ∈ pre, ToLower L x.Name ≠ ToLower L name := by
    intro vm
    rw [← findByLower_some]
    cases hf : findByLower L (ToLower L name) (inv.filter (fun x => IsVMAllowed c x.VMID)) with
    | none => simp [FindVMByName, hl, hf]
    | some v => simp [FindVMByName, hl, hf]
  have h2 : FindVMByName c L w name tr
        = (.error ("VM '" ++ name ++ "' non trouvée"),
            tr ++ [requestOf c "GET" "/cluster/resources?type=vm" []]) ↔
      ∀ x ∈ inv, IsVMAllowed c x.VMID = true → ToLower L x.Name ≠ ToLower L name := by
    have hiff : (∀ x ∈ inv, IsVMAllowed c x.VMID = true → ToLower L x.Name ≠ ToLower L name) ↔
        findByLower L (ToLower L name) (inv.filter (fun x => IsVMAllowed c x.VMID)) = none := by
      rw [findByLower_none]
      simp [List.mem_filter]
    rw [hiff]
    cases hf : findByLower L (ToLower L name) (inv.filter (fun x => IsVMAllowed c x.VMID)) with
    | none => simp [FindVMByName, hl, hf]
    | some v => simp [FindVMByName, hl, hf]
  refine ⟨h1, h2, ?_, by simp [ToLower, isASCII]; decide, ToLower_ascii_iff L, ?_, ?_, ?_⟩
  · cases hf : findByLower L (ToLower L name) (inv.filter (fun x => IsVMAllowed c x.VMID)) with
    | none => right; simp [FindVMByName, hl, hf]
    | some v => left; exact ⟨v, by simp [FindVMByName, hl, hf]⟩
  · intro hname hall
    have hfold : ∀ x ∈ inv, (ToLower L x.Name = ToLower L name ↔ EqIgnoreCase x.Name name) :=
      fun x hx => ToLower_ascii_iff L x.Name name (hall x hx) hname
    have hsub : ∀ x ∈ inv.filter (fun x => IsVMAllowed c x.VMID), x ∈ inv :=
      fun x hx => (List.mem_filter.1 hx).1
    constructor
    · intro vm
      rw [h1 vm]
      constructor
      · rintro ⟨pre, post, heq, hm, hpre⟩
        have hin : ∀ x ∈ pre ++ vm :: post, x ∈ inv := fun x hx => hsub x (heq ▸ hx)
        refine ⟨pre, post, heq, (hfold vm (hin vm (by simp))).1 hm, ?_⟩
        intro x hx hne
        exact hpre x hx ((hfold x (hin x (by simp [hx]))).2 hne)
      · rintro ⟨pre, post, heq, hm, hpre⟩
        have hin : ∀ x ∈ pre ++ vm :: post, x ∈ inv := fun x hx => hsub x (heq ▸ hx)
        refine ⟨pre, post, heq, (hfold vm (hin vm (by simp))).2 hm, ?_⟩
        intro x hx hne
        exact hpre x hx ((hfold x (hin x (by simp [hx]))).1 hne)
    · rw [h2]
      constructor
      · intro hno x hx hal he
        exact hno x hx hal ((hfold x hx).2 he)
      · intro hno x hx hal he
        exact hno x hx hal ((hfold x hx).1 he)
  · exact (ToLower_ascii_iff (libWith []) "webserver" "WebServer" (by decide) (by decide)).1
      (by decide)
  · intro h
    have := (ToLower_ascii_iff (libWith []) "xyz" "web" (by decide) (by decide)).2 h
    revert this
    decide

theorem FindVMByName_first_match_witness :
    FindVMByName namedClient (libWith namedInventory) exampleWorld "webserver" []
      = (.ok ⟨100, "WebServer", "running", "pve"⟩,
          [] ++ [requestOf namedClient "GET" "/cluster/resources?type=vm" []]) :=
  ((FindVMByName_first_match namedClient (libWith namedInventory) exampleWorld []
      200 "inventory" "inventory" namedInventory "webserver" rfl (by decide) rfl rfl).1
    ⟨100, "WebServer", "running", "pve"⟩).2
    ⟨[⟨101, "db", "stopped", "pve"⟩], [⟨103, "WEBSERVER", "stopped", "pve"⟩],
      by decide, by decide, by decide⟩

/-! ## Status codes and the requests of each operation -/

theorem doRequest_400 (c : Client) (w : World) (tr : List Request) (method endpoint : String)
    (params : List (String × String)) (code : Int) (body : String)
    (hresp : w tr (requestOf c method endpoint params) = .response code body)
    (h400 : 400 ≤ code) :
    doRequest c w method endpoint params tr
      = (.error ("erreur API Proxmox: " ++ fmtInt code ++ " - " ++ body),
          tr ++ [requestOf c method endpoint params]) := by
  have h := doRequest_response c w method endpoint params tr code body hresp
  have hge : code ≥ 400 := h400
  simpa only [hge, if_true] using h

theorem doRequest_ok_iff (c : Client) (w : World) (tr : List Request) (method endpoint : String)
    (params : List (String × String)) (body : String) :
    (doRequest c w method endpoint params tr).1 = .ok body ↔
      ∃ code, code < 400 ∧ w tr (requestOf c method endpoint params) = .response code body := by
  cases hw : w tr (requestOf c method endpoint params) with
  | badRequest err => simp [doRequest, hw]
  | transportError err => simp [doRequest, hw]
  | readError err => simp [doRequest, hw]
  | response code b =>
    by_cases hc : code ≥ 400
    · simp only [doRequest, hw, hc, if_true, reduceCtorEq, Outcome.response.injEq, false_iff,
        not_exists, not_and]
      intro code2 hlt heq
      omega
    · simp only [doRequest, hw, hc, if_false, Except.ok.injEq, Outcome.response.injEq]
      constructor
      · rintro rfl
        exact ⟨code, by omega, rfl, rfl⟩
      · rintro ⟨_, _, _, hb⟩
        exact hb

theorem url_ne_of_length (c : Client) (method a b : String) (h : a.length ≠ b.length) :
    requestOf c method a [] ≠ requestOf c method b [] := by
  intro heq
  have hu := congrArg (fun r => r.url.length) heq
  simp [requestOf, String.length_append] at hu
  exact h hu

/-- C7, amended: a request answered with a status code of 400 or above makes
`doRequest` fail with "erreur API Proxmox: <code> - <body>", and so `ListVMs`
and, on a whitelisted id, `GetVMStatus`, `StartVM`, `StopVM` and `ShutdownVM`,
each for the answer to its own request; a request answered with a status code
below 400, whatever its class, makes `doRequest` return the body, and
`doRequest` returns a body as a success in no other case. -/
theorem doRequest_fails_from_400 (c : Client) (L : Lib) (w : World) (tr : List Request) :
    (∀ method endpoint params code body,
        w tr (requestOf c method endpoint params) = .response code body →
        (400 ≤ code →
          doRequest c w method endpoint params tr
            = (.error ("erreur API Proxmox: " ++ fmtInt code ++ " - " ++ body),
                tr ++ [requestOf c method endpoint params])) ∧
        (code < 400 →
          doRequest c w method endpoint params tr
            = (.ok body, tr ++ [requestOf c method endpoint params]))) ∧
      (∀ method endpoint params body,
        (doRequest c w method endpoint params tr).1 = .ok body ↔
          ∃ code, code < 400 ∧
            w tr (requestOf c method endpoint params) = .response code body) ∧
      (∀ code body,
        w tr (requestOf c "GET" "/cluster/resources?type=vm" []) = .response code body →
        400 ≤ code →
        ListVMs c L w tr
          = (.error ("erreur API Proxmox: " ++ fmtInt code ++ " - " ++ body),
              tr ++ [requestOf c "GET" "/cluster/resources?type=vm" []])) ∧
      (∀ id code body, IsVMAllowed c id = true →
        w tr (requestOf c "GET"
          ("/nodes/" ++ c.Node ++ "/qemu/" ++ fmtInt id ++ "/status/current") [])
          = .response code body →
        400 ≤ code →
        GetVMStatus c L w id tr
          = (.error ("erreur API Proxmox: " ++ fmtInt code ++ " - " ++ body),
              tr ++ [requestOf c "GET"
                ("/nodes/" ++ c.Node ++ "/qemu/" ++ fmtInt id ++ "/status/current") []])) ∧
      (∀ id code body, IsVMAllowed c id = true →
        w tr (requestOf c "POST"
          ("/nodes/" ++ c.Node ++ "/qemu/" ++ fmtInt id ++ "/status/start") [])
          = .response code body →
        400 ≤ code →
        StartVM c w id tr
          = (.error ("erreur API Proxmox: " ++ fmtInt code ++ " - " ++ body),
              tr ++ [requestOf c "POST"
                ("/nodes/" ++ c.Node ++ "/qemu/" ++ fmtInt id ++ "/status/start") []])) ∧
      (∀ id code body, IsVMAllowed c id = true →
        w tr (requestOf c "POST"
          ("/nodes/" ++ c.Node ++ "/qemu/" ++ fmtInt id ++ "/status/stop") [])
          = .response code body →
        400 ≤ code →
        StopVM c w id tr
          = (.error ("erreur API Proxmox: " ++ fmtInt code ++ " - " ++ body),
              tr ++ [requestOf c "POST"
                ("/nodes/" ++ c.Node ++ "/qemu/" ++ fmtInt id ++ "/status/stop") []])) ∧
      (∀ id code body, IsVMAllowed c id = true →
        w tr (requestOf c "POST"
          ("/nodes/" ++ c.Node ++ "/qemu/" ++ fmtInt id ++ "/status/shutdown") [])
          = .response code body →
        400 ≤ code →
        ShutdownVM c w id tr
          = (.error ("erreur API Proxmox: " ++ fmtInt code ++ " - " ++ body),
              tr ++ [requestOf c "POST"
                ("/nodes/" ++ c.Node ++ "/qemu/" ++ fmtInt id ++ "/status/shutdown") []])) := by
  refine ⟨?_, ?_, ?_, ?_, ?_, ?_, ?_⟩
  · intro method endpoint params code body hresp
    refine ⟨doRequest_400 c w tr method endpoint params code body hresp, ?_⟩
    intro hlt
    have h := doRequest_response c w method endpoint params tr code body hresp
    have hge : ¬ code ≥ 400 := by omega
    simpa only [hge, if_false] using h
  · intro method endpoint params body
    exact doRequest_ok_iff c w tr method endpoint params body
  · intro code body hresp h400
    simp [ListVMs, doRequest_400 c w tr _ _ _ code body hresp h400]
  · intro id code body hal hresp h400
    simp [GetVMStatus, hal, doRequest_400 c w tr _ _ _ code body hresp h400]
  · intro id code body hal hresp h400
    simp [StartVM, hal, doRequest_400 c w tr _ _ _ code body hresp h400]
  · intro id code body hal hresp h400
    simp [StopVM, hal, doRequest_400 c w tr _ _ _ code body hresp h400]
  · intro id code body hal hresp h400
    simp [ShutdownVM, hal, doRequest_400 c w tr _ _ _ code body hresp h400]

theorem doRequest_fails_from_400_witness :
    StartVM exampleClient startFails 100 []
        = (.error "erreur API Proxmox: 500 - internal error",
            [requestOf exampleClient "POST" "/nodes/pve/qemu/100/status/start" []]) ∧
      doRequest exampleClient startFails "GET" "/cluster/resources?type=vm" [] []
        = (.ok "inventory", [requestOf exampleClient "GET" "/cluster/resources?type=vm" []]) :=
  have h := doRequest_fails_from_400 exampleClient (libWith exampleInventory) startFails []
  ⟨h.2.2.2.2.1 100 500 "internal error" (by decide) rfl (by decide),
    ((h.1 "GET" "/cluster/resources?type=vm" [] 200 "inventory" rfl).2 (by decide))⟩

/-- C7, as stated, fails: status 304 is not a success status, and yet
`doRequest` returns the body as a success, and `StartVM` succeeds. -/
theorem doRequest_accepts_status_304 :
    ¬ SuccessStatus 304 ∧
      (doRequest exampleClient notModifiedWorld "POST" "/nodes/pve/qemu/100/status/start" [] []).1
        = .ok "" ∧
      (StartVM exampleClient notModifiedWorld 100 []).1 = .ok () := by
  refine ⟨by decide, rfl, ?_⟩
  rfl

/-- C10, amended: on a whitelisted id, `executeVMCommand "stop"` makes the
requests of one `doRequest` call, the POST to
`/nodes/<node>/qemu/<id>/status/shutdown` of `ShutdownVM`: that one request is
handed to the HTTP client, and nothing else, unless `http.NewRequest` rejects
it, in which case no request is made.  It is not the request of the forced
`StopVM` (`.../status/stop`).  In the same way `"start"` makes only the POST to
`.../status/start` of `StartVM`, and `"status"` only the GET to
`.../status/current` of `GetVMStatus`. -/
theorem stop_is_graceful_shutdown (c : Client) (L : Lib) (w : World) (id : Int)
    (tr : List Request) (h : IsVMAllowed c id = true) :
    ((executeVMCommand c L w "stop" id tr).2 = (ShutdownVM c w id tr).2 ∧
        (ShutdownVM c w id tr).2
          = (doRequest c w "POST"
              ("/nodes/" ++ c.Node ++ "/qemu/" ++ fmtInt id ++ "/status/shutdown") [] tr).2 ∧
        ((∀ err, w tr (requestOf c "POST"
              ("/nodes/" ++ c.Node ++ "/qemu/" ++ fmtInt id ++ "/status/shutdown") [])
              ≠ .badRequest err) →
          (executeVMCommand c L w "stop" id tr).2
            = tr ++ [requestOf c "POST"
                ("/nodes/" ++ c.Node ++ "/qemu/" ++ fmtInt id ++ "/status/shutdown") []]) ∧
        (∀ err, w tr (requestOf c "POST"
              ("/nodes/" ++ c.Node ++ "/qemu/" ++ fmtInt id ++ "/status/shutdown") [])
              = .badRequest err →
          (executeVMCommand c L w "stop" id tr).2 = tr)) ∧
      (requestOf c "POST" ("/nodes/" ++ c.Node ++ "/qemu/" ++ fmtInt id ++ "/status/shutdown") []
          ≠ requestOf c "POST"
              ("/nodes/" ++ c.Node ++ "/qemu/" ++ fmtInt id ++ "/status/stop") [] ∧
        (StopVM c w id tr).2
          = (doRequest c w "POST"
              ("/nodes/" ++ c.Node ++ "/qemu/" ++ fmtInt id ++ "/status/stop") [] tr).2) ∧
      ((executeVMCommand c L w "start" id tr).2 = (StartVM c w id tr).2 ∧
        (StartVM c w id tr).2
          = (doRequest c w "POST"
              ("/nodes/" ++ c.Node ++ "/qemu/" ++ fmtInt id ++ "/status/start") [] tr).2 ∧
        ((∀ err, w tr (requestOf c "POST"
              ("/nodes/" ++ c.Node ++ "/qemu/" ++ fmtInt id ++ "/status/start") [])
              ≠ .badRequest err) →
          (executeVMCommand c L w "start" id tr).2
            = tr ++ [requestOf c "POST"
                ("/nodes/" ++ c.Node ++ "/qemu/" ++ fmtInt id ++ "/status/start") []]) ∧
        (∀ err, w tr (requestOf c "POST"
              ("/nodes/" ++ c.Node ++ "/qemu/" ++ fmtInt id ++ "/status/start") [])
              = .badRequest err →
          (executeVMCommand c L w "start" id tr).2 = tr)) ∧
      ((executeVMCommand c L w "status" id tr).2 = (GetVMStatus c L w id tr).2 ∧
        (GetVMStatus c L w id tr).2
          = (doRequest c w "GET"
              ("/nodes/" ++ c.Node ++ "/qemu/" ++ fmtInt id ++ "/status/current") [] tr).2 ∧
        ((∀ err, w tr (requestOf c "GET"
              ("/nodes/" ++ c.Node ++ "/qemu/" ++ fmtInt id ++ "/status/current") [])
              ≠ .badRequest err) →
          (executeVMCommand c L w "status" id tr).2
            = tr ++ [requestOf c "GET"
                ("/nodes/" ++ c.Node ++ "/qemu/" ++ fmtInt id ++ "/status/current") []]) ∧
        (∀ err, w tr (requestOf c "GET"
              ("/nodes/" ++ c.Node ++ "/qemu/" ++ fmtInt id ++ "/status/current") [])
              = .badRequest err →
          (executeVMCommand c L w "status" id tr).2 = tr)) := by
  have e1 : (executeVMCommand c L w "stop" id tr).2 = (ShutdownVM c w id tr).2 := by
    have hne : ¬ ("stop" = "start") := by decide
    simp only [executeVMCommand, hne, if_false, if_true]
    split <;> simp_all
  have e2 : (executeVMCommand c L w "start" id tr).2 = (StartVM c w id tr).2 := by
    simp only [executeVMCommand, if_true]
    split <;> simp_all
  have e3 : (executeVMCommand c L w "status" id tr).2 = (GetVMStatus c L w id tr).2 := by
    have hne : ¬ ("status" = "start") := by decide
    have hne2 : ¬ ("status" = "stop") := by decide
    simp only [executeVMCommand, hne, hne2, if_false, if_true]
    split <;> simp_all
  have t1 := ShutdownVM_trace c w id tr h
  have t2 := StartVM_trace c w id tr h
  have t3 := GetVMStatus_trace c L w id tr h
  refine ⟨⟨e1, t1, ?_, ?_⟩, ⟨?_, StopVM_trace c w id tr h⟩, ⟨e2, t2, ?_, ?_⟩, ⟨e3, t3, ?_, ?_⟩⟩
  · intro hs
    rw [e1, t1, doRequest_trace_sent c w _ _ _ tr hs]
  · intro err hb
    rw [e1, t1, doRequest_trace_unsent c w _ _ _ tr err hb]
  · apply url_ne_of_length
    simp [String.length_append]
    decide
  · intro hs
    rw [e2, t2, doRequest_trace_sent c w _ _ _ tr hs]
  · intro err hb
    rw [e2, t2, doRequest_trace_unsent c w _ _ _ tr err hb]
  · intro hs
    rw [e3, t3, doRequest_trace_sent c w _ _ _ tr hs]
  · intro err hb
    rw [e3, t3, doRequest_trace_unsent c w _ _ _ tr err hb]

theorem stop_is_graceful_shutdown_witness :
    (executeVMCommand exampleClient (libWith exampleInventory) exampleWorld "stop" 101 []).2
      = [⟨"POST", "https://pve.example:8006/api2/json/nodes/pve/qemu/101/status/shutdown",
          "PVEAPIToken=bot@pve!discord=secret", none⟩] :=
  ((stop_is_graceful_shutdown exampleClient (libWith exampleInventory) exampleWorld 101 []
    (by decide)).1.2.2.1 (fun _ hbad => by cases hbad)).trans (by decide)

/-- C10, as stated, fails: 100 is whitelisted, and `executeVMCommand "stop"`
makes no request at all when the request cannot be built, here because the
configured base URL ends in a tab; the reply is the failure text. -/
theorem stop_without_request :
    IsVMAllowed tabClient 100 = true ∧
      executeVMCommand tabClient (libWith exampleInventory) strictWorld "stop" 100 []
        = (("❌ Erreur lors de l'arrêt de la VM 100: erreur lors de la création de la requête: net/url: invalid control character in URL",
            0xFF0000), []) := by
  constructor <;> decide

/-! ## The dispatcher -/

theorem collectChoices_length (L : Lib) (focusedValue focusedLower : String) (vms : List VM)
    (choices : List Choice) (h : choices.length < 25) :
    (collectChoices L focusedValue focusedLower vms choices).length ≤ 25 := by
  induction vms generalizing choices with
  | nil => simp [collectChoices]; omega
  | cons vm rest ih =>
    unfold collectChoices
    split
    · simp only []
      split
      · simp; omega
      · apply ih
        simp at *
        omega
    · exact ih choices h

theorem foldl_append_start (l : List String) (a : String) :
    l.foldl (fun r s => r ++ s) a = a ++ l.foldl (fun r s => r ++ s) "" := by
  induction l generalizing a with
  | nil => simp
  | cons s t ih =>
    simp only [List.foldl_cons]
    rw [ih (a ++ s), ih ("" ++ s)]
    simp [String.append_assoc]

theorem join_cons (s : String) (t : List String) :
    String.join (s :: t) = s ++ String.join t := by
  simp only [String.join, List.foldl_cons]
  rw [foldl_append_start]
  simp

theorem listLines_eq (vms : List VM) (response : String) :
    listLines vms response = response ++ String.join (vms.map listLine) := by
  induction vms generalizing response with
  | nil => simp [listLines, String.join]
  | cons vm rest ih =>
    simp only [listLines, ih, List.map_cons, join_cons, String.append_assoc]

/-- C5: whatever the typed fragment and the inventory, `handleAutocomplete`
either sends nothing or sends one list of suggestions, and that list has at most
25 entries; the loop that builds it never yields more than 25, and it yields
exactly 25 on an empty fragment and an inventory of 30. -/
theorem autocomplete_at_most_25 (c : Client) (L : Lib) (w : World) (data : CommandData)
    (tr : List Request) :
    ((handleAutocomplete c L w data tr).1 = [] ∨
        ∃ choices, (handleAutocomplete c L w data tr).1 = [.respondChoices choices] ∧
          choices.length ≤ 25) ∧
      (∀ (focusedValue : String) (vms : List VM),
        (collectChoices L focusedValue (ToLower L focusedValue) vms []).length ≤ 25) ∧
      (manyVMs 1 30).length = 30 ∧
      (collectChoices L "" (ToLower L "") (manyVMs 1 30) []).length = 25 := by
  refine ⟨?_, fun fv vms => collectChoices_length L fv _ vms [] (by simp), by decide, ?_⟩
  swap
  · simp [manyVMs, collectChoices]
  unfold handleAutocomplete
  split
  · left; rfl
  · split
    · left; rfl
    · right
      exact ⟨_, rfl, collectChoices_length L _ _ _ [] (by simp)⟩

/-- C6: when `ListVMs` succeeds on the inventory `inv`, the reply to `list` is
the header followed by one line per whitelisted entry of `inv`, in inventory
order, and by nothing else (or the fixed text "Aucune VM autorisée trouvée."
when there is none); the line of an entry starts with 🟢 exactly when its status
is "running" and with 🔴 otherwise.  With whitelist 100, 101 and inventory 100
("web", running), 101 ("db", stopped), 102 ("other", running) the reply lists
100 with 🟢 and 101 with 🔴 and nothing of 102. -/
theorem list_reply_enumerates_whitelisted (c : Client) (L : Lib) (w : World)
    (tr : List Request) (status : Int) (body raw : String) (inv : List VM)
    (subOptions : List SubOption) (more : List CommandOption)
    (hresp : w tr (requestOf c "GET" "/cluster/resources?type=vm" []) = .response status body)
    (hstatus : status < 400)
    (hjson : L.decodeAPIResponse body = .ok raw) (hvms : L.decodeVMs raw = .ok inv) :
    handleCommand c L w ⟨"vm", ⟨"list", subOptions⟩ :: more⟩ tr
        = ([.respondDeferred,
            .editResponse
              (if inv.filter (fun vm => IsVMAllowed c vm.VMID) = [] then
                "Aucune VM autorisée trouvée."
              else "**VMs autorisées:**\n\n" ++
                String.join ((inv.filter (fun vm => IsVMAllowed c vm.VMID)).map listLine))
              0x0099FF],
          tr ++ [requestOf c "GET" "/cluster/resources?type=vm" []]) ∧
      (∀ vm : VM, listLine vm = statusEmoji vm ++ " **" ++ vm.Name ++ "** (ID: " ++
          fmtInt vm.VMID ++ ") - " ++ vm.Status ++ "\n" ∧
        (statusEmoji vm = "🟢" ↔ vm.Status = "running") ∧
        (statusEmoji vm = "🔴" ↔ vm.Status ≠ "running")) ∧
      handleCommand exampleClient (libWith exampleInventory) exampleWorld
          ⟨"vm", [⟨"list", []⟩]⟩ []
        = ([.respondDeferred,
            .editResponse
              "**VMs autorisées:**\n\n🟢 **web** (ID: 100) - running\n🔴 **db** (ID: 101) - stopped\n"
              0x0099FF],
          [requestOf exampleClient "GET" "/cluster/resources?type=vm" []]) ∧
      Contains
          "**VMs autorisées:**\n\n🟢 **web** (ID: 100) - running\n🔴 **db** (ID: 101) - stopped\n"
          "102" = false ∧
      Contains
          "**VMs autorisées:**\n\n🟢 **web** (ID: 100) - running\n🔴 **db** (ID: 101) - stopped\n"
          "other" = false := by
  have hl := ListVMs_decoded c L w tr status body raw inv hresp hstatus hjson hvms
  refine ⟨?_, ?_, by decide, by decide, by decide⟩
  · simp only [handleCommand, hl, listLines_eq]
    simp
  · intro vm
    refine ⟨rfl, ?_, ?_⟩
    · unfold statusEmoji
      split
      · simp [*]
      · simp [*]
    · unfold statusEmoji
      split
      · simp [*]
      · simp [*]

theorem list_reply_enumerates_whitelisted_witness :
    handleCommand exampleClient (libWith exampleInventory) exampleWorld
        ⟨"vm", [⟨"list", []⟩]⟩ []
      = ([.respondDeferred,
          .editResponse
            "**VMs autorisées:**\n\n🟢 **web** (ID: 100) - running\n🔴 **db** (ID: 101) - stopped\n"
            0x0099FF],
        [requestOf exampleClient "GET" "/cluster/resources?type=vm" []]) :=
  (list_reply_enumerates_whitelisted exampleClient (libWith exampleInventory) exampleWorld []
    200 "inventory" "inventory" exampleInventory [] [] rfl (by decide) rfl rfl).1.trans
    (by decide)

/-- C8, amended: for a sub-action name other than list, start, stop and status,
`executeVMCommand` returns ("❌ Commande inconnue", 0xFF0000) for every id and
makes no request, and `handleCommand` replies with it when the first option of
the sub-action resolves to an id; when the resolution fails the reply is "❌ "
followed by the resolution error, and when the sub-action has no option only the
deferred acknowledgement is sent. -/
theorem unknown_subcommand_reply (c : Client) (L : Lib) (w : World) (tr : List Request)
    (name : String) (more : List CommandOption)
    (h1 : name ≠ "list") (h2 : name ≠ "start") (h3 : name ≠ "stop") (h4 : name ≠ "status") :
    (∀ vmid tr1, executeVMCommand c L w name vmid tr1
        = (("❌ Commande inconnue", 0xFF0000), tr1)) ∧
      (∀ (opt : SubOption) (rest : List SubOption) (vmid : Int) (tr1 : List Request),
        parseVMInput c L w opt.Value tr = (.ok vmid, tr1) →
        handleCommand c L w ⟨"vm", ⟨name, opt :: rest⟩ :: more⟩ tr
          = ([.respondDeferred, .editResponse "❌ Commande inconnue" 0xFF0000], tr1)) ∧
      (∀ (opt : SubOption) (rest : List SubOption) (err : String) (tr1 : List Request),
        parseVMInput c L w opt.Value tr = (.error err, tr1) →
        handleCommand c L w ⟨"vm", ⟨name, opt :: rest⟩ :: more⟩ tr
          = ([.respondDeferred, .editResponse ("❌ " ++ err) 0xFF0000], tr1)) ∧
      handleCommand c L w ⟨"vm", ⟨name, []⟩ :: more⟩ tr = ([.respondDeferred], tr) := by
  have hexec : ∀ vmid tr1, executeVMCommand c L w name vmid tr1
      = (("❌ Commande inconnue", 0xFF0000), tr1) := by
    intro vmid tr1
    simp [executeVMCommand, h2, h3, h4]
  refine ⟨hexec, ?_, ?_, ?_⟩
  · intro opt rest vmid tr1 hp
    simp [handleCommand, h1, hp, hexec]
  · intro opt rest err tr1 hp
    simp [handleCommand, h1, hp]
  · simp [handleCommand, h1]

theorem unknown_subcommand_reply_witness :
    handleCommand exampleClient (libWith exampleInventory) exampleWorld
        ⟨"vm", [⟨"restart", [⟨"vm", "101"⟩]⟩]⟩ []
      = ([.respondDeferred, .editResponse "❌ Commande inconnue" 0xFF0000], []) :=
  (unknown_subcommand_reply exampleClient (libWith exampleInventory) exampleWorld []
    "restart" [] (by decide) (by decide) (by decide) (by decide)).2.1
    ⟨"vm", "101"⟩ [] 101 [] rfl

/-- C8, as stated, fails: the sub-action "restart" is none of list, start, stop,
status; without an option it gets no final reply at all, and with the option
"ghost", a name no VM has, the reply is the lookup error, not "❌ Commande
inconnue". -/
theorem unknown_subcommand_other_replies :
    handleCommand exampleClient (libWith exampleInventory) exampleWorld
        ⟨"vm", [⟨"restart", []⟩]⟩ []
      = ([.respondDeferred], []) ∧
    handleCommand exampleClient (libWith exampleInventory) exampleWorld
        ⟨"vm", [⟨"restart", [⟨"vm", "ghost"⟩]⟩]⟩ []
      = ([.respondDeferred, .editResponse "❌ VM 'ghost' non trouvée" 0xFF0000],
          [requestOf exampleClient "GET" "/cluster/resources?type=vm" []]) := by
  constructor <;> decide

/-- C4, the code at the failing input: "3cx" is not an integer, and
`parseVMInput` returns the id 3 for it without any request, whatever the client
and the remote side, although the name lookup finds the VM named "3cx" under
the id 105. -/
theorem parseVMInput_takes_numeric_prefix :
    (∀ (c : Client) (L : Lib) (w : World) (tr : List Request),
        parseVMInput c L w "3cx" tr = (.ok 3, tr)) ∧
      Atoi "3cx".data = .error .syntaxError ∧
      FindVMByName pbxClient (libWith pbxInventory) exampleWorld "3cx" []
        = (.ok ⟨105, "3cx", "stopped", "pve"⟩,
            [requestOf pbxClient "GET" "/cluster/resources?type=vm" []]) ∧
      handleCommand pbxClient (libWith pbxInventory) exampleWorld
          ⟨"vm", [⟨"stop", [⟨"vm", "3cx"⟩]⟩]⟩ []
        = ([.respondDeferred, .editResponse "🛑 VM 3 en cours d'arrêt" 0xFFA500],
            [requestOf pbxClient "POST" "/nodes/pve/qemu/3/status/shutdown" []]) := by
  refine ⟨fun c L w tr => rfl, rfl, ?_, ?_⟩
  · rfl
  · decide

/-! ## Parsing numbers -/

theorem decimalValue_nil : decimalValue [] = 0 := by
  simp [decimalValue]

theorem decimalValue_cons (c : Char) (cs : List Char) :
    decimalValue (c :: cs) = (c.toNat - 48) * 10 ^ cs.length + decimalValue cs := by
  simp [decimalValue, Nat.ofDigits_append, Nat.ofDigits_singleton]
  ring

theorem digitsValue_some (ds : List Char) (acc n : Nat) :
    digitsValue ds acc = some n ↔
      (∀ c ∈ ds, isDigit c = true) ∧ n = acc * 10 ^ ds.length + decimalValue ds := by
  induction ds generalizing acc with
  | nil =>
    simp only [digitsValue, decimalValue_nil, List.not_mem_nil, false_imp_iff, implies_true,
      true_and, List.length_nil, pow_zero, mul_one, add_zero, Option.some.injEq]
    exact eq_comm
  | cons c cs ih =>
    by_cases hc : isDigit c = true
    · simp only [digitsValue, hc, if_true, ih, List.mem_cons, forall_eq_or_imp, true_and,
        decimalValue_cons, List.length_cons]
      constructor
      · rintro ⟨h, rfl⟩
        exact ⟨h, by ring⟩
      · rintro ⟨h, rfl⟩
        exact ⟨h, by ring⟩
    · simp [digitsValue, hc]

theorem digitsValue_none (ds : List Char) (acc : Nat) :
    digitsValue ds acc = none ↔ ∃ c ∈ ds, isDigit c = false := by
  induction ds generalizing acc with
  | nil => simp [digitsValue]
  | cons c cs ih =>
    by_cases hc : isDigit c = true
    · simp [digitsValue, hc, ih]
    · simp [digitsValue, hc]

theorem isDigit_plus : isDigit '+' = false := by decide

theorem isDigit_minus : isDigit '-' = false := by decide

theorem ne_sign_of_isDigit (c : Char) (h : isDigit c = true) : c ≠ '+' ∧ c ≠ '-' := by
  constructor
  · rintro rfl
    rw [isDigit_plus] at h
    cases h
  · rintro rfl
    rw [isDigit_minus] at h
    cases h

theorem parseMagnitude_ok (neg : Bool) (ds : List Char) (v : Int) :
    parseMagnitude neg ds = .ok v ↔
      ds ≠ [] ∧ (∀ c ∈ ds, isDigit c = true) ∧
        v = (if neg = true then -(decimalValue ds : Int) else (decimalValue ds : Int)) ∧
        -(2 : Int) ^ 63 ≤ v ∧ v < (2 : Int) ^ 63 := by
  unfold parseMagnitude
  cases ds with
  | nil => simp
  | cons d ds =>
    simp only [List.isEmpty_cons, Bool.false_eq_true, if_false, ne_eq, reduceCtorEq,
      not_false_eq_true, true_and]
    cases hv : digitsValue (d :: ds) 0 with
    | none =>
      obtain ⟨c, hc, hcd⟩ := (digitsValue_none _ _).1 hv
      simp only [reduceCtorEq, false_iff, not_and]
      intro hall
      rw [hall c hc] at hcd
      cases hcd
    | some n =>
      obtain ⟨hall, hn⟩ := (digitsValue_some _ _ _).1 hv
      simp only [zero_mul, zero_add] at hn
      have hnn : (0 : Int) ≤ (decimalValue (d :: ds) : Int) := Int.ofNat_nonneg _
      cases neg with
      | true =>
        simp only [if_true]
        by_cases hle : n ≤ 2 ^ 63
        · simp only [hle, if_true, Except.ok.injEq]
          constructor
          · rintro rfl
            refine ⟨hall, by rw [hn], ?_, ?_⟩
            · have : (n : Int) ≤ 2 ^ 63 := by exact_mod_cast hle
              omega
            · rw [hn]; omega
          · rintro ⟨_, hv2, _, _⟩
            rw [hv2, hn]
        · simp only [hle, if_false, reduceCtorEq, false_iff, not_and]
          intro _ hv2 hlo
          exfalso
          apply hle
          rw [hv2, ← hn] at hlo
          have : (n : Int) ≤ 2 ^ 63 := by omega
          exact_mod_cast this
      | false =>
        simp only [Bool.false_eq_true, if_false]
        by_cases hlt : n < 2 ^ 63
        · simp only [hlt, if_true, Except.ok.injEq]
          constructor
          · rintro rfl
            refine ⟨hall, by rw [hn], ?_, ?_⟩
            · omega
            · exact_mod_cast hlt
          · rintro ⟨_, hv2, _, _⟩
            rw [hv2, hn]
        · simp only [hlt, if_false, reduceCtorEq, false_iff, not_and]
          intro _ hv2 _ hhi
          apply hlt
          rw [hv2, ← hn] at hhi
          exact_mod_cast hhi

theorem ParseInt10_iff (s : List Char) (v : Int) : ParseInt10 s = .ok v ↔ DecimalInt s v := by
  cases s with
  | nil =>
    simp only [ParseInt10, reduceCtorEq, false_iff]
    rintro ⟨sign, digits, hs, _, hne, _⟩
    have := List.append_eq_nil.1 hs.symm
    exact hne this.2
  | cons c rest =>
    unfold ParseInt10
    by_cases hp : c = '+'
    · subst hp
      simp only [if_true, parseMagnitude_ok, Bool.false_eq_true, if_false]
      constructor
      · rintro ⟨hne, hall, hv, hlo, hhi⟩
        exact ⟨['+'], rest, rfl, Or.inr (Or.inl rfl), hne, hall, by simpa using hv, hlo, hhi⟩
      · rintro ⟨sign, digits, hs, hsign, hne, hall, hv, hlo, hhi⟩
        rcases hsign with rfl | rfl | rfl
        · simp only [List.nil_append] at hs
          subst hs
          exact absurd rfl (ne_sign_of_isDigit _ (hall _ (List.mem_cons_self _ _))).1
        · simp only [List.singleton_append, List.cons.injEq, true_and] at hs
          subst hs
          exact ⟨hne, hall, by simpa using hv, hlo, hhi⟩
        · simp at hs
    · by_cases hm : c = '-'
      · subst hm
        simp only [hp, if_false, if_true, parseMagnitude_ok]
        constructor
        · rintro ⟨hne, hall, hv, hlo, hhi⟩
          exact ⟨['-'], rest, rfl, Or.inr (Or.inr rfl), hne, hall, by simpa using hv, hlo, hhi⟩
        · rintro ⟨sign, digits, hs, hsign, hne, hall, hv, hlo, hhi⟩
          rcases hsign with rfl | rfl | rfl
          · simp only [List.nil_append] at hs
            subst hs
            exact absurd rfl (ne_sign_of_isDigit _ (hall _ (List.mem_cons_self _ _))).2
          · simp at hs
          · simp only [List.singleton_append, List.cons.injEq, true_and] at hs
            subst hs
            exact ⟨hne, hall, by simpa using hv, hlo, hhi⟩
      · simp only [hp, hm, if_false, parseMagnitude_ok, Bool.false_eq_true]
        constructor
        · rintro ⟨hne, hall, hv, hlo, hhi⟩
          exact ⟨[], c :: rest, rfl, Or.inl rfl, hne, hall, by simpa using hv, hlo, hhi⟩
        · rintro ⟨sign, digits, hs, hsign, hne, hall, hv, hlo, hhi⟩
          rcases hsign with rfl | rfl | rfl
          · simp only [List.nil_append] at hs
            subst hs
            exact ⟨hne, hall, by simpa using hv, hlo, hhi⟩
          · simp at hs
            exact absurd hs.1 hp
          · simp at hs
            exact absurd hs.1 hm

theorem Atoi_error_iff (s : List Char) :
    (∃ e, Atoi s = .error e) ↔ ¬ ∃ v, DecimalInt s v := by
  simp only [← ParseInt10_iff, Atoi]
  cases ParseInt10 s with
  | error e => simp
  | ok v => simp

theorem splitComma_ne_nil (s : List Char) : splitComma s ≠ [] := by
  cases s with
  | nil => simp [splitComma]
  | cons c cs =>
    unfold splitComma
    split
    · simp
    · split <;> simp

theorem splitComma_intercalate (s : List Char) : List.intercalate [','] (splitComma s) = s := by
  induction s with
  | nil => simp [splitComma, List.intercalate]
  | cons c cs ih =>
    unfold splitComma
    by_cases hc : c = ','
    · subst hc
      simp only [if_true]
      cases hsp : splitComma cs with
      | nil => exact absurd hsp (splitComma_ne_nil cs)
      | cons p ps =>
        rw [hsp] at ih
        simp only [List.intercalate, List.intersperse] at ih ⊢
        simp [ih]
    · simp only [hc, if_false]
      cases hsp : splitComma cs with
      | nil => exact absurd hsp (splitComma_ne_nil cs)
      | cons p ps =>
        rw [hsp] at ih
        simp only [List.intercalate] at ih ⊢
        cases ps with
        | nil => simpa [List.intersperse] using ih
        | cons q qs => simpa [List.intersperse] using ih

theorem splitComma_no_comma (s : List Char) : ∀ part ∈ splitComma s, ',' ∉ part := by
  induction s with
  | nil => simp [splitComma]
  | cons c cs ih =>
    unfold splitComma
    by_cases hc : c = ','
    · simp only [hc, if_true, List.mem_cons]
      rintro part (rfl | h)
      · simp
      · exact ih part h
    · simp only [hc, if_false]
      cases hsp : splitComma cs with
      | nil => exact absurd hsp (splitComma_ne_nil cs)
      | cons p ps =>
        rw [hsp] at ih
        simp only [List.mem_cons]
        rintro part (rfl | h)
        · intro hmem
          rcases List.mem_cons.1 hmem with h1 | h1
          · exact hc h1.symm
          · exact ih p (List.mem_cons_self _ _) h1
        · exact ih part (List.mem_cons_of_mem _ h)

theorem parseParts_ok (parts : List (List Char)) (acc vms : List Int) :
    parseParts parts acc = .ok vms ↔
      ∃ vs, vms = acc ++ vs ∧
        List.Forall₂ (fun part v => DecimalInt (TrimSpace part) v) parts vs := by
  induction parts generalizing acc with
  | nil =>
    simp only [parseParts, Except.ok.injEq, List.forall₂_nil_left_iff]
    constructor
    · rintro rfl; exact ⟨[], by simp, rfl⟩
    · rintro ⟨vs, rfl, rfl⟩; simp
  | cons part rest ih =>
    unfold parseParts
    cases ha : Atoi (TrimSpace part) with
    | error e =>
      simp only [reduceCtorEq, false_iff, not_exists, not_and]
      intro vs _ hf
      cases hf with
      | cons h _ =>
        rw [← ParseInt10_iff] at h
        simp [Atoi] at ha
        rw [ha] at h
        cases h
    | ok vmid =>
      simp only [ih]
      have hd : DecimalInt (TrimSpace part) vmid := (ParseInt10_iff _ _).1 ha
      constructor
      · rintro ⟨vs, rfl, hf⟩
        exact ⟨vmid :: vs, by simp, List.Forall₂.cons hd hf⟩
      · rintro ⟨vs, rfl, hf⟩
        cases hf with
        | cons h hrest =>
          rename_i v vs1
          have hv : ParseInt10 (TrimSpace part) = .ok v := (ParseInt10_iff _ _).2 h
          simp only [Atoi] at ha
          rw [ha] at hv
          injection hv with hv
          subst hv
          exact ⟨vs1, by simp, hrest⟩

theorem parseParts_error (parts : List (List Char)) (acc : List Int) (msg : String) :
    parseParts parts acc = .error msg ↔
      ∃ pre part post, parts = pre ++ part :: post ∧
        (∀ q ∈ pre, ∃ v, DecimalInt (TrimSpace q) v) ∧
        (¬ ∃ v, DecimalInt (TrimSpace part) v) ∧
        msg = "ID VM invalide: " ++ String.mk part := by
  induction parts generalizing acc with
  | nil => simp [parseParts]
  | cons p rest ih =>
    unfold parseParts
    cases ha : Atoi (TrimSpace p) with
    | error e =>
      have hbad : ¬ ∃ v, DecimalInt (TrimSpace p) v := (Atoi_error_iff _).1 ⟨e, ha⟩
      simp only [Except.error.injEq]
      constructor
      · rintro rfl
        exact ⟨[], p, rest, rfl, by simp, hbad, rfl⟩
      · rintro ⟨pre, part, post, heq, hpre, _, hmsg⟩
        cases pre with
        | nil =>
          simp only [List.nil_append, List.cons.injEq] at heq
          rw [hmsg, heq.1]
        | cons q qs =>
          simp only [List.cons_append, List.cons.injEq] at heq
          exact absurd (hpre q (List.mem_cons_self _ _)) (heq.1 ▸ hbad)
    | ok vmid =>
      have hd : DecimalInt (TrimSpace p) vmid := (ParseInt10_iff _ _).1 ha
      simp only [ih]
      constructor
      · rintro ⟨pre, part, post, heq, hpre, hbad, hmsg⟩
        refine ⟨p :: pre, part, post, by simp [heq], ?_, hbad, hmsg⟩
        intro q hq
        rcases List.mem_cons.1 hq with rfl | hq
        · exact ⟨vmid, hd⟩
        · exact hpre q hq
      · rintro ⟨pre, part, post, heq, hpre, hbad, hmsg⟩
        cases pre with
        | nil =>
          simp only [List.nil_append, List.cons.injEq] at heq
          exact absurd ⟨vmid, heq.1 ▸ hd⟩ hbad
        | cons q qs =>
          simp only [List.cons_append, List.cons.injEq] at heq
          exact ⟨qs, part, post, heq.2, fun x hx => hpre x (List.mem_cons_of_mem _ hx),
            hbad, hmsg⟩

theorem forall₂_left_valid {α β : Type} (R : α → β → Prop) (l₁ : List α) (l₂ : List β)
    (h : List.Forall₂ R l₁ l₂) : ∀ a ∈ l₁, ∃ b, R a b := by
  induction h with
  | nil => simp
  | cons hab _ ih =>
    intro x hx
    rcases List.mem_cons.1 hx with rfl | hx
    · exact ⟨_, hab⟩
    · exact ih x hx

/-- C9: `ParseAllowedVMs` returns the empty list on the empty string; on any
other input it fails if and only if some comma-separated entry, trimmed of
surrounding white space, is not a valid decimal integer, and the error is then
"ID VM invalide: " followed by such an entry; otherwise it returns the values of
the entries, one per entry and in their order.  The entries are the pieces of
the input between its commas. -/
theorem ParseAllowedVMs_comma_separated (vmsStr : String) :
    ParseAllowedVMs "" = .ok [] ∧
      ((∃ msg, ParseAllowedVMs vmsStr = .error msg) ↔
        vmsStr ≠ "" ∧
          ∃ part ∈ splitComma vmsStr.data, ¬ ∃ v, DecimalInt (TrimSpace part) v) ∧
      (∀ msg, ParseAllowedVMs vmsStr = .error msg →
        ∃ part ∈ splitComma vmsStr.data,
          (¬ ∃ v, DecimalInt (TrimSpace part) v) ∧
            msg = "ID VM invalide: " ++ String.mk part) ∧
      (∀ vms, ParseAllowedVMs vmsStr = .ok vms ↔
        (vmsStr = "" ∧ vms = []) ∨
          (vmsStr ≠ "" ∧
            List.Forall₂ (fun part v => DecimalInt (TrimSpace part) v)
              (splitComma vmsStr.data) vms)) ∧
      List.intercalate [','] (splitComma vmsStr.data) = vmsStr.data ∧
      (∀ part ∈ splitComma vmsStr.data, ',' ∉ part) ∧
      ParseAllowedVMs "100, 101 ,+7" = .ok [100, 101, 7] ∧
      ParseAllowedVMs "100,1o1" = .error "ID VM invalide: 1o1" := by
  have herr : ∀ msg, ParseAllowedVMs vmsStr = .error msg →
      vmsStr ≠ "" ∧ ∃ part ∈ splitComma vmsStr.data,
        (¬ ∃ v, DecimalInt (TrimSpace part) v) ∧
          msg = "ID VM invalide: " ++ String.mk part := by
    intro msg h
    unfold ParseAllowedVMs at h
    by_cases he : vmsStr = ""
    · simp [he] at h
    · simp only [he, if_false] at h
      obtain ⟨pre, part, post, heq, _, hbad, hmsg⟩ := (parseParts_error _ _ _).1 h
      exact ⟨he, part, by rw [heq]; simp, hbad, hmsg⟩
  have hok : ∀ vms, ParseAllowedVMs vmsStr = .ok vms ↔
      (vmsStr = "" ∧ vms = []) ∨
        (vmsStr ≠ "" ∧
          List.Forall₂ (fun part v => DecimalInt (TrimSpace part) v)
            (splitComma vmsStr.data) vms) := by
    intro vms
    unfold ParseAllowedVMs
    by_cases he : vmsStr = ""
    · simp [he, eq_comm]
    · simp only [he, if_false, false_and, false_or, ne_eq, not_false_eq_true, true_and,
        parseParts_ok, List.nil_append]
      constructor
      · rintro ⟨vs, rfl, hf⟩; exact hf
      · intro hf; exact ⟨vms, rfl, hf⟩
  refine ⟨rfl, ?_, ?_, hok, splitComma_intercalate _, splitComma_no_comma _, rfl, rfl⟩
  · constructor
    · rintro ⟨msg, h⟩
      obtain ⟨hne, part, hmem, hbad, _⟩ := herr msg h
      exact ⟨hne, part, hmem, hbad⟩
    · rintro ⟨hne, part, hmem, hbad⟩
      cases hres : ParseAllowedVMs vmsStr with
      | error msg => exact ⟨msg, rfl⟩
      | ok vms =>
        rcases (hok vms).1 hres with ⟨he, _⟩ | ⟨_, hf⟩
        · exact absurd he hne
        · exact absurd (forall₂_left_valid _ _ _ hf part hmem) hbad
  · intro msg h
    obtain ⟨_, part, hmem, hbad, hmsg⟩ := herr msg h
    exact ⟨part, hmem, hbad, hmsg⟩

/-! ## Resolving the input of a command -/

theorem isSpace_of_isDigit (c : Char) (h : isDigit c = true) : isSpace c = false := by
  simp only [isDigit, Bool.and_eq_true, decide_eq_true_eq] at h
  simp only [isSpace, Bool.or_eq_false_iff, Bool.and_eq_false_imp, decide_eq_true_eq,
    decide_eq_false_iff_not, beq_eq_false_iff_ne, ne_eq]
  omega

theorem SkipSpace_nonspace (c : Char) (l : List Char) (h : isSpace c = false) :
    SkipSpace (c :: l) = .ok (c :: l) := by
  have h1 : c ≠ '\r' := by rintro rfl; revert h; decide
  have h2 : c ≠ '\n' := by rintro rfl; revert h; decide
  simp [SkipSpace, h1, h2, h]

theorem takeWhile_digits (digits rest : List Char) (hall : ∀ c ∈ digits, isDigit c = true)
    (hrest : ∀ r ∈ rest.head?, isDigit r = false) :
    (digits ++ rest).takeWhile isDigit = digits := by
  induction digits with
  | nil =>
    cases rest with
    | nil => rfl
    | cons r rs =>
      have := hrest r (by simp)
      simp [List.takeWhile, this]
  | cons d ds ih =>
    have hd := hall d (List.mem_cons_self _ _)
    simp only [List.cons_append, List.takeWhile_cons, hd, if_true]
    rw [ih (fun c hc => hall c (List.mem_cons_of_mem _ hc))]

theorem SscanfInt_numeric_prefix (s rest : List Char) (v : Int) (h : DecimalInt s v)
    (hrest : ∀ r ∈ rest.head?, isDigit r = false) :
    SscanfInt (String.mk (s ++ rest)) = .ok v := by
  have hp : ParseInt10 s = .ok v := (ParseInt10_iff s v).2 h
  obtain ⟨sign, digits, rfl, hsign, hne, hall, -, -, -⟩ := h
  cases digits with
  | nil => exact absurd rfl hne
  | cons d ds =>
    have hd : isDigit d = true := hall d (List.mem_cons_self _ _)
    have htw := takeWhile_digits (d :: ds) rest hall hrest
    rcases hsign with rfl | rfl | rfl
    · have hsk : SkipSpace (d :: (ds ++ rest)) = .ok (d :: (ds ++ rest)) :=
        SkipSpace_nonspace _ _ (isSpace_of_isDigit d hd)
      have hns := ne_sign_of_isDigit d hd
      simp only [List.nil_append, List.cons_append] at hp htw ⊢
      simp only [SscanfInt, hsk, hns.1, hns.2, or_self, if_false, htw, List.isEmpty_cons,
        Bool.false_eq_true, List.nil_append, hp]
    · have hsk : SkipSpace ('+' :: (d :: ds ++ rest)) = .ok ('+' :: (d :: ds ++ rest)) :=
        SkipSpace_nonspace _ _ (by decide)
      simp only [List.singleton_append, List.cons_append, List.append_assoc,
        List.nil_append] at hp htw hsk ⊢
      simp only [SscanfInt, hsk, true_or, if_true, htw, List.isEmpty_cons,
        Bool.false_eq_true, if_false, List.singleton_append, hp]
    · have hsk : SkipSpace ('-' :: (d :: ds ++ rest)) = .ok ('-' :: (d :: ds ++ rest)) :=
        SkipSpace_nonspace _ _ (by decide)
      simp only [List.singleton_append, List.cons_append, List.append_assoc,
        List.nil_append] at hp htw hsk ⊢
      simp only [SscanfInt, hsk, or_true, if_true, htw, List.isEmpty_cons,
        Bool.false_eq_true, if_false, List.singleton_append, hp]

theorem parseVMInput_literal (c : Client) (L : Lib) (w : World) (tr : List Request)
    (input : String) (v : Int) (h : DecimalInt input.data v) :
    parseVMInput c L w input tr = (.ok v, tr) := by
  have hs := SscanfInt_numeric_prefix input.data [] v h (by simp)
  simp only [List.append_nil] at hs
  simp [parseVMInput, hs]

theorem parseVMInput_lookup (c : Client) (L : Lib) (w : World) (tr : List Request)
    (input e : String) (h : SscanfInt input = .error e) :
    parseVMInput c L w input tr =
        (match FindVMByName c L w input tr with
          | (.error err, tr1) => (.error err, tr1)
          | (.ok vm, tr1) => (.ok vm.VMID, tr1)) ∧
      (parseVMInput c L w input tr).2
        = (doRequest c w "GET" "/cluster/resources?type=vm" [] tr).2 := by
  have h1 : parseVMInput c L w input tr =
      (match FindVMByName c L w input tr with
        | (.error err, tr1) => (.error err, tr1)
        | (.ok vm, tr1) => (.ok vm.VMID, tr1)) := by
    simp [parseVMInput, h]
  refine ⟨h1, ?_⟩
  rw [h1]
  have hf : (FindVMByName c L w input tr).2 = (ListVMs c L w tr).2 := by
    unfold FindVMByName
    split
    · simp_all
    · split <;> simp_all
  rw [← ListVMs_trace c L w tr, ← hf]
  split <;> simp_all

theorem SscanfInt_error_of_first (c : Char) (rest : List Char) (hs : isSpace c = false)
    (hd : isDigit c = false) (hp : c ≠ '+') (hm : c ≠ '-') :
    SscanfInt (String.mk (c :: rest)) = .error "expected integer" := by
  have hsk := SkipSpace_nonspace c rest hs
  simp [SscanfInt, hsk, hp, hm, List.takeWhile, hd]

end ProxControl
